import Mathlib

/-!
Verification development for the bauhaus pattern-generation core.

Shallow embedding conventions:
* JS `number` values are modelled as exact rationals `ℚ`.  The spec treats all
  numeric fields as abstract scalars and promises exact identities, so the
  idealised-real reading is the intended one; `ℚ` keeps every definition
  computable.
* The transcendental library functions `Math.cos`, `Math.sin`, `Math.sqrt`,
  `Math.exp` and the constants `Math.PI` and `PHI = (1+sqrt 5)/2` are
  irrational, so they are passed to each definition as explicit parameters
  (`cos sin sqrt exp : ℚ → ℚ`, `pi phi : ℚ`).  Theorems either hold for all
  values of these parameters or carry the hypotheses actually used (for
  example `1 < phi`, satisfied by the golden ratio, which lies in `(1, 2)`).
* JS division by zero yields `±Infinity`/`NaN`; in `ℚ` it yields `0`.  Claims
  touching a division are therefore stated away from zero denominators.
* `Math.round x` is `⌊x + 1/2⌋` (round half toward `+∞`), modelled by
  `jsRound`.  `0.1` and `0.05` literals are modelled by the exact rationals
  `1/10` and `1/20`.
* A JS string of SVG path data is modelled as the list of path commands it
  serialises; joining path strings with a space corresponds to list append.
-/

/-- Embeds `round(value, decimals)` from the core geometry module:
`Math.round(value * factor) / factor` with `factor = 10 ^ decimals`. -/
def jsRound (x : ℚ) : ℤ := ⌊x + 1 / 2⌋

/-- Embeds `round(value, decimals) = Math.round(value * 10^d) / 10^d`. -/
def roundTo (x : ℚ) (d : ℕ) : ℚ := (jsRound (x * 10 ^ d) : ℚ) / 10 ^ d

/-- Embeds the `Point2D` record `{x, y}`. -/
structure Pt where
  x : ℚ
  y : ℚ
deriving DecidableEq, Repr

/-- Embeds `lerp(a, b, t) = a + (b - a) * t`. -/
def lerp (a b t : ℚ) : ℚ := a + (b - a) * t

/-- Embeds `pointOnCircle(center, radius, angle)`; `cos`/`sin` stand for
`Math.cos`/`Math.sin`. -/
def pointOnCircle (cos sin : ℚ → ℚ) (center : Pt) (radius angle : ℚ) : Pt :=
  ⟨center.x + radius * cos angle, center.y + radius * sin angle⟩

/-- Embeds `degToRad(degrees) = degrees * Math.PI / 180`. -/
def degToRad (pi degrees : ℚ) : ℚ := degrees * pi / 180

/-- One serialised command of the `PathBuilder` path mini-language.  Each
constructor corresponds to exactly one emitted token (`M` / `L` / `A` / `Z`);
the stored rationals are the already-rounded numbers printed into the
string. -/
inductive PathCmd where
  | move (x y : ℚ)
  | line (x y : ℚ)
  | arc (rx ry xrot : ℚ) (largeArc sweep : Bool) (x y : ℚ)
  | close
deriving DecidableEq, Repr

/-- Embeds `PathBuilder.moveTo`: pushes `M round(p.x,2),round(p.y,2)`. -/
def moveTo (p : Pt) : PathCmd := .move (roundTo p.x 2) (roundTo p.y 2)

/-- Embeds `PathBuilder.lineTo`: pushes `L round(p.x,2),round(p.y,2)`. -/
def lineTo (p : Pt) : PathCmd := .line (roundTo p.x 2) (roundTo p.y 2)

/-- Embeds `PathBuilder.arcTo(radius, endPoint, largeArc, sweep)`: pushes
`A rx,ry 0 largeArcFlag,sweepFlag x,y` with `rx = ry = round(radius,2)`. -/
def arcTo (radius : ℚ) (endPoint : Pt) (largeArc sweep : Bool) : PathCmd :=
  .arc (roundTo radius 2) (roundTo radius 2) 0 largeArc sweep
    (roundTo endPoint.x 2) (roundTo endPoint.y 2)

/-- Embeds `circleToPath(center, radius)`: two semicircular arcs from the top
point through the bottom point and back, then `Z`. -/
def circleToPath (center : Pt) (radius : ℚ) : List PathCmd :=
  let top : Pt := ⟨center.x, center.y - radius⟩
  let bottom : Pt := ⟨center.x, center.y + radius⟩
  [moveTo top, arcTo radius bottom true true, arcTo radius top true true, .close]

/-- Counts the `M` tokens of a serialised path, i.e. its sub-paths. -/
def countMoves (l : List PathCmd) : ℕ :=
  l.countP (fun c => match c with | .move _ _ => true | _ => false)

namespace Spacing

/-- Embeds the JS idiom `options.field || default` used by every spacing
function: `undefined` (here `none`) and the falsy number `0` both select the
default. -/
def orDefault (o : Option ℚ) (d : ℚ) : ℚ :=
  match o with
  | none => d
  | some v => if v = 0 then d else v

/-- Embeds the `uniform` loop shared verbatim by `calculateRadii`,
`calculateSquareSizes` and `calculatePolygonRadii`:
`for i in 0..count-1: push (outer - range * (i / (count-1)))`. -/
def uniformSeq (outer inner : ℚ) (count : ℕ) : List ℚ :=
  let range := outer - inner
  (List.range count).map (fun i : ℕ => outer - range * ((i : ℚ) / ((count : ℚ) - 1)))

/-- Embeds the `graduated` loop shared verbatim by the three spacing modules:
same as `uniform` but with the parameter eased quadratically (`t * t`). -/
def graduatedSeq (outer inner : ℚ) (count : ℕ) : List ℚ :=
  let range := outer - inner
  (List.range count).map (fun i : ℕ =>
    let t : ℚ := (i : ℚ) / ((count : ℚ) - 1)
    outer - range * (t * t))

/-- Embeds the body of the shrinkage `for` loop (identical in
`calculateShrinkageRadii` of the rings and polygons packages and
`calculateShrinkageSizes` of the squares package): subtract the running gap,
stop as soon as the new extent is `≤ 0`, otherwise push it and decay the gap.
The first argument is the remaining number of iterations
(`ringCount - 1` at the top call). -/
def shrinkageLoop (mult : ℚ) : ℕ → ℚ → ℚ → List ℚ
  | 0, _, _ => []
  | n + 1, current, gap =>
    let r := current - gap
    if r ≤ 0 then []
    else r :: shrinkageLoop mult n r (gap * mult)

/-- Embeds the whole shrinkage spacing function shared by the three
packages, guards included. -/
def shrinkageSeq (outer : ℚ) (count : ℕ) (outerGap shrinkage : ℚ) : List ℚ :=
  if count = 0 then []
  else if count = 1 then [outer]
  else outer :: shrinkageLoop (1 - shrinkage) (count - 1) outer outerGap

/-- Embeds the golden-ratio running subtraction
`currentRadius -= gap; radii.push(currentRadius)` over a precomputed list of
gaps (the gap of each step does not depend on the running radius). -/
def subScan (a : ℚ) : List ℚ → List ℚ
  | [] => []
  | g :: gs => (a - g) :: subScan (a - g) gs

end Spacing

namespace Rings

/-- Embeds the ring `SpacingMode` union type. -/
inductive SpacingMode where
  | uniform
  | shrinkage
  | graduated
  | goldenRatio
deriving DecidableEq, Repr

/-- Embeds the optional-options record of `calculateRadii`; a missing field is
`none`. -/
structure RadiiOptions where
  innerRadius : Option ℚ
  outerGap : Option ℚ
  shrinkage : Option ℚ
deriving DecidableEq, Repr

/-- Embeds `goldenRatioSum(n)`: `0` for `n ≤ 0`, else `(PHI^n - 1)/(PHI - 1)`
(`phi` stands for the irrational constant `PHI`). -/
def goldenRatioSum (phi : ℚ) (n : ℕ) : ℚ :=
  if n = 0 then 0 else (phi ^ n - 1) / (phi - 1)

/-- Embeds `calculateShrinkageRadii(outerRadius, ringCount, outerGap,
shrinkage)` from the rings spacing module. -/
def calculateShrinkageRadii (outerRadius : ℚ) (ringCount : ℕ)
    (outerGap shrinkage : ℚ) : List ℚ :=
  Spacing.shrinkageSeq outerRadius ringCount outerGap shrinkage

/-- Embeds `calculateRadii(outerRadius, ringCount, mode, options)` from the
rings spacing module; `phi` stands for the constant `PHI`.  The golden-ratio
case precomputes the gap list `unitSize * PHI ^ (ringCount - 1 - i)` for
`i = 1 .. ringCount-1` and then runs the source's
`currentRadius -= gap; push` loop (`Spacing.subScan`). -/
def calculateRadii (phi outerRadius : ℚ) (ringCount : ℕ) (mode : SpacingMode)
    (options : RadiiOptions) : List ℚ :=
  if ringCount = 0 then []
  else if ringCount = 1 then [outerRadius]
  else
    match mode with
    | .shrinkage =>
      calculateShrinkageRadii outerRadius ringCount
        (Spacing.orDefault options.outerGap 18)
        (Spacing.orDefault options.shrinkage (1 / 20))
    | .uniform =>
      Spacing.uniformSeq outerRadius
        (Spacing.orDefault options.innerRadius (outerRadius * (1 / 10))) ringCount
    | .graduated =>
      Spacing.graduatedSeq outerRadius
        (Spacing.orDefault options.innerRadius (outerRadius * (1 / 10))) ringCount
    | .goldenRatio =>
      let innerRadius := Spacing.orDefault options.innerRadius (outerRadius * (1 / 10))
      let range := outerRadius - innerRadius
      let totalParts := goldenRatioSum phi (ringCount - 1)
      let unitSize := range / totalParts
      outerRadius ::
        Spacing.subScan outerRadius
          ((List.range (ringCount - 1)).map (fun j => unitSize * phi ^ (ringCount - 2 - j)))

end Rings

namespace Squares

/-- Embeds the square `SquareSpacingMode` union type. -/
inductive SquareSpacingMode where
  | uniform
  | shrinkage
  | graduated
deriving DecidableEq, Repr

/-- Embeds the optional-options record of `calculateSquareSizes`. -/
structure SizeOptions where
  innerSize : Option ℚ
  outerGap : Option ℚ
  shrinkage : Option ℚ
deriving DecidableEq, Repr

/-- Embeds `calculateShrinkageSizes(outerSize, squareCount, outerGap,
shrinkage)` from the squares spacing module (the same loop as the ring
version). -/
def calculateShrinkageSizes (outerSize : ℚ) (squareCount : ℕ)
    (outerGap shrinkage : ℚ) : List ℚ :=
  Spacing.shrinkageSeq outerSize squareCount outerGap shrinkage

/-- Embeds `calculateSquareSizes(outerSize, squareCount, mode, options)`;
identical to the ring engine except that there is no golden-ratio mode and
the default outer gap is `24`. -/
def calculateSquareSizes (outerSize : ℚ) (squareCount : ℕ)
    (mode : SquareSpacingMode) (options : SizeOptions) : List ℚ :=
  if squareCount = 0 then []
  else if squareCount = 1 then [outerSize]
  else
    match mode with
    | .shrinkage =>
      calculateShrinkageSizes outerSize squareCount
        (Spacing.orDefault options.outerGap 24)
        (Spacing.orDefault options.shrinkage (1 / 20))
    | .uniform =>
      Spacing.uniformSeq outerSize
        (Spacing.orDefault options.innerSize (outerSize * (1 / 10))) squareCount
    | .graduated =>
      Spacing.graduatedSeq outerSize
        (Spacing.orDefault options.innerSize (outerSize * (1 / 10))) squareCount

end Squares

namespace Polygons

/-- Embeds the polygon `PolygonSpacingMode` union type. -/
inductive PolygonSpacingMode where
  | uniform
  | shrinkage
  | graduated
deriving DecidableEq, Repr

/-- Embeds the optional-options record of `calculatePolygonRadii`. -/
structure PolyOptions where
  innerRadius : Option ℚ
  outerGap : Option ℚ
  shrinkage : Option ℚ
deriving DecidableEq, Repr

/-- Embeds `calculateShrinkageRadii` from the polygons spacing module (the
same loop as the ring version). -/
def calculateShrinkageRadii (outerRadius : ℚ) (polygonCount : ℕ)
    (outerGap shrinkage : ℚ) : List ℚ :=
  Spacing.shrinkageSeq outerRadius polygonCount outerGap shrinkage

/-- Embeds `calculatePolygonRadii(outerRadius, polygonCount, mode, options)`;
identical to the square engine (no golden-ratio mode, default outer gap
`24`). -/
def calculatePolygonRadii (outerRadius : ℚ) (polygonCount : ℕ)
    (mode : PolygonSpacingMode) (options : PolyOptions) : List ℚ :=
  if polygonCount = 0 then []
  else if polygonCount = 1 then [outerRadius]
  else
    match mode with
    | .shrinkage =>
      calculateShrinkageRadii outerRadius polygonCount
        (Spacing.orDefault options.outerGap 24)
        (Spacing.orDefault options.shrinkage (1 / 20))
    | .uniform =>
      Spacing.uniformSeq outerRadius
        (Spacing.orDefault options.innerRadius (outerRadius * (1 / 10))) polygonCount
    | .graduated =>
      Spacing.graduatedSeq outerRadius
        (Spacing.orDefault options.innerRadius (outerRadius * (1 / 10))) polygonCount

end Polygons

namespace Rings

/-- Embeds the `RingPatternConfig` record after its shallow merge with
`DEFAULT_CONFIG` (so every field is present; only `center` stays
optional).  Counts are naturals, matching their integer use. -/
structure RingPatternConfig where
  outerRadius : ℚ
  innerRadius : ℚ
  ringCount : ℕ
  spacingMode : SpacingMode
  outerGap : ℚ
  shrinkage : ℚ
  cutCount : ℕ
  gridDivisions : ℚ
  staggerOffset : ℚ
  cutWidth : ℚ
  showOuterBoundary : Bool
  center : Option Pt
deriving DecidableEq, Repr

/-- Embeds one element of the `rings` array: `{index, radius, rotation,
pathData}`. -/
structure GeneratedRing where
  index : ℕ
  radius : ℚ
  rotation : ℚ
  pathData : List PathCmd
deriving DecidableEq, Repr

/-- Embeds the `GeneratedPattern` record returned by `generateRingPattern`. -/
structure GeneratedPattern where
  rings : List GeneratedRing
  outerBoundary : Option (List PathCmd)
  center : Pt
  radii : List ℚ
deriving DecidableEq, Repr

/-- Embeds `calculateStaggeredRotation(ringIndex, gridDivisions,
staggerOffset)`: grid angle `2π/gridDivisions`, grid position `0` for even
indices and `staggerOffset` for odd ones. -/
def calculateStaggeredRotation (pi : ℚ) (ringIndex : ℕ)
    (gridDivisions staggerOffset : ℚ) : ℚ :=
  let gridAngle := 2 * pi / gridDivisions
  let gridPosition := if ringIndex % 2 = 0 then 0 else staggerOffset
  gridPosition * gridAngle

/-- Embeds the private `generateArc(center, radius, startAngle, endAngle)`:
one `M` followed by one `A` with `largeArc = (endAngle - startAngle > π)` and
sweep flag set. -/
def generateArc (cos sin : ℚ → ℚ) (pi : ℚ) (center : Pt)
    (radius startAngle endAngle : ℚ) : List PathCmd :=
  let start := pointOnCircle cos sin center radius startAngle
  let stop := pointOnCircle cos sin center radius endAngle
  let sweepAngle := endAngle - startAngle
  let largeArc : Bool := sweepAngle > pi
  [moveTo start, arcTo radius stop largeArc true]

/-- Embeds `generateRingWithCuts(center, radius, cutCount, cutWidth,
rotation)`: full circle when `cutCount = 0` or when the arc angle
`2π/cutCount - cutWidth/radius` is non-positive, otherwise `cutCount` arcs
joined with spaces (list append). -/
def generateRingWithCuts (cos sin : ℚ → ℚ) (pi : ℚ) (center : Pt)
    (radius : ℚ) (cutCount : ℕ) (cutWidth rotation : ℚ) : List PathCmd :=
  if cutCount = 0 then circleToPath center radius
  else
    let cutAngle := cutWidth / radius
    let segmentAngle := 2 * pi / (cutCount : ℚ)
    let arcAngle := segmentAngle - cutAngle
    if arcAngle ≤ 0 then circleToPath center radius
    else
      ((List.range cutCount).map (fun i : ℕ =>
        let startAngle := rotation + (i : ℚ) * segmentAngle + cutAngle / 2
        let endAngle := startAngle + arcAngle
        generateArc cos sin pi center radius startAngle endAngle)).flatten

/-- Embeds `generateRingPattern(config)` for an already-merged config.  The
source maps over the radii with their indices; this is written as a map over
`List.range radii.length` so that the element at position `i` is stated
directly. -/
def generateRingPattern (cos sin : ℚ → ℚ) (pi phi : ℚ)
    (cfg : RingPatternConfig) : GeneratedPattern :=
  let center := cfg.center.getD ⟨cfg.outerRadius, cfg.outerRadius⟩
  let radii := calculateRadii phi cfg.outerRadius cfg.ringCount cfg.spacingMode
    ⟨some cfg.innerRadius, some cfg.outerGap, some cfg.shrinkage⟩
  let rings := (List.range radii.length).map (fun index =>
    let radius := radii.getD index 0
    let rotation := calculateStaggeredRotation pi index cfg.gridDivisions cfg.staggerOffset
    let pathData :=
      if index = 0 ∨ cfg.cutCount = 0 then circleToPath center radius
      else generateRingWithCuts cos sin pi center radius cfg.cutCount cfg.cutWidth rotation
    GeneratedRing.mk index radius rotation pathData)
  ⟨rings,
   if cfg.showOuterBoundary then some (circleToPath center cfg.outerRadius) else none,
   center, radii⟩

end Rings

namespace Squares

/-- Embeds the private `interpolate(p1, p2, t)` of the squares generator. -/
def interpolate (p1 p2 : Pt) (t : ℚ) : Pt :=
  ⟨p1.x + (p2.x - p1.x) * t, p1.y + (p2.y - p1.y) * t⟩

/-- Embeds `getSquareCorners(center, size, rotationDeg)`: the four offsets
`(±size, ±size)` rotated by `degToRad rotationDeg` about the center, in the
order top-left, top-right, bottom-right, bottom-left. -/
def getSquareCorners (cos sin : ℚ → ℚ) (pi : ℚ) (center : Pt)
    (size rotationDeg : ℚ) : List Pt :=
  let angle := degToRad pi rotationDeg
  let c := cos angle
  let s := sin angle
  let offsets : List Pt := [⟨-size, -size⟩, ⟨size, -size⟩, ⟨size, size⟩, ⟨-size, size⟩]
  offsets.map (fun offset =>
    ⟨center.x + offset.x * c - offset.y * s, center.y + offset.x * s + offset.y * c⟩)

/-- Embeds `generateSquare(center, size, rotationDeg, clockwise)`: a closed
4-vertex polygon, corners visited in reverse order when counter-clockwise. -/
def generateSquare (cos sin : ℚ → ℚ) (pi : ℚ) (center : Pt)
    (size rotationDeg : ℚ) (clockwise : Bool) : List PathCmd :=
  let corners := getSquareCorners cos sin pi center size rotationDeg
  let c0 := corners.getD 0 ⟨0, 0⟩
  let c1 := corners.getD 1 ⟨0, 0⟩
  let c2 := corners.getD 2 ⟨0, 0⟩
  let c3 := corners.getD 3 ⟨0, 0⟩
  if clockwise then [moveTo c0, lineTo c1, lineTo c2, lineTo c3, .close]
  else [moveTo c0, lineTo c3, lineTo c2, lineTo c1, .close]

/-- Embeds the private `drawSideWithNotches(builder, start, end, notchCount,
notchHalf, _segmentLength)`: for each of `notchCount` evenly distributed notch
centers, a `lineTo` just before the notch and a pen-up `moveTo` just after it.
Nothing is drawn past the last notch; in particular the side's end point is
not reached by this helper.  `sqrt` stands for `Math.sqrt`. -/
def drawSideWithNotches (sqrt : ℚ → ℚ) (start stop : Pt) (notchCount : ℕ)
    (notchHalf _segmentLength : ℚ) : List PathCmd :=
  if notchCount = 0 then []
  else
    let dx := stop.x - start.x
    let dy := stop.y - start.y
    let length := sqrt (dx * dx + dy * dy)
    let ux := dx / length
    let uy := dy / length
    ((List.range notchCount).map (fun k =>
      let i : ℕ := k + 1
      let t : ℚ := (i : ℚ) / ((notchCount : ℚ) + 1)
      let notchCenter := interpolate start stop t
      [lineTo ⟨notchCenter.x - ux * notchHalf, notchCenter.y - uy * notchHalf⟩,
       moveTo ⟨notchCenter.x + ux * notchHalf, notchCenter.y + uy * notchHalf⟩])).flatten

/-- Embeds `generateSquareWithNotches(center, size, rotationDeg, clockwise,
notchesPerSide, notchWidth)`: an open polyline starting at the midpoint of the
first side, walking the four corners with notched sides, and finishing with a
half-notched partial segment (`⌊notchesPerSide/2⌋` notches) toward the start
midpoint. -/
def generateSquareWithNotches (cos sin sqrt : ℚ → ℚ) (pi : ℚ) (center : Pt)
    (size rotationDeg : ℚ) (clockwise : Bool) (notchesPerSide : ℕ)
    (notchWidth : ℚ) : List PathCmd :=
  let corners := getSquareCorners cos sin pi center size rotationDeg
  let c0 := corners.getD 0 ⟨0, 0⟩
  let c1 := corners.getD 1 ⟨0, 0⟩
  let c2 := corners.getD 2 ⟨0, 0⟩
  let c3 := corners.getD 3 ⟨0, 0⟩
  let sideLength := size * 2
  let segmentLength := sideLength / ((notchesPerSide : ℚ) + 1)
  let notchHalf := notchWidth / 2
  if clockwise then
    let startPoint := interpolate c0 c1 (1 / 2)
    let endPoint := interpolate c0 c1 (1 / 2)
    [moveTo startPoint, lineTo c1]
      ++ drawSideWithNotches sqrt c1 c2 notchesPerSide notchHalf segmentLength
      ++ [lineTo c2]
      ++ drawSideWithNotches sqrt c2 c3 notchesPerSide notchHalf segmentLength
      ++ [lineTo c3]
      ++ drawSideWithNotches sqrt c3 c0 notchesPerSide notchHalf segmentLength
      ++ [lineTo c0]
      ++ drawSideWithNotches sqrt c0 endPoint (notchesPerSide / 2) notchHalf segmentLength
  else
    let startPoint := interpolate c0 c3 (1 / 2)
    let endPoint := interpolate c0 c3 (1 / 2)
    [moveTo startPoint, lineTo c3]
      ++ drawSideWithNotches sqrt c3 c2 notchesPerSide notchHalf segmentLength
      ++ [lineTo c2]
      ++ drawSideWithNotches sqrt c2 c1 notchesPerSide notchHalf segmentLength
      ++ [lineTo c1]
      ++ drawSideWithNotches sqrt c1 c0 notchesPerSide notchHalf segmentLength
      ++ [lineTo c0]
      ++ drawSideWithNotches sqrt c0 endPoint (notchesPerSide / 2) notchHalf segmentLength

end Squares

namespace Polygons

/-- Embeds the private `interpolate(p1, p2, t)` of the polygons generator. -/
def interpolate (p1 p2 : Pt) (t : ℚ) : Pt :=
  ⟨p1.x + (p2.x - p1.x) * t, p1.y + (p2.y - p1.y) * t⟩

/-- Embeds `getPolygonVertices(center, radius, sides, rotationDeg)`: `sides`
points on the circle starting from the top (`degToRad rotationDeg - π/2`) in
steps of `2π/sides`. -/
def getPolygonVertices (cos sin : ℚ → ℚ) (pi : ℚ) (center : Pt)
    (radius : ℚ) (sides : ℕ) (rotationDeg : ℚ) : List Pt :=
  let angleStep := 2 * pi / (sides : ℚ)
  let startAngle := degToRad pi rotationDeg - pi / 2
  (List.range sides).map (fun i : ℕ =>
    pointOnCircle cos sin center radius (startAngle + (i : ℚ) * angleStep))

/-- Embeds `generatePolygon(center, radius, sides, rotationDeg)`: a simple
closed path through all vertices (`sides = 0` lies outside the config's
`PolygonSides` domain; it is mapped to a bare close command). -/
def generatePolygon (cos sin : ℚ → ℚ) (pi : ℚ) (center : Pt)
    (radius : ℚ) (sides : ℕ) (rotationDeg : ℚ) : List PathCmd :=
  let vertices := getPolygonVertices cos sin pi center radius sides rotationDeg
  match vertices with
  | [] => [.close]
  | v0 :: rest => moveTo v0 :: (rest.map lineTo) ++ [.close]

/-- Embeds `generatePolygonWithBridges(center, radius, sides, rotationDeg,
bridgeCount, bridgeWidth)`: `bridgesPerEdge = ⌊bridgeCount / sides⌋`; an edge
with zero bridges is drawn whole; otherwise each of the `bridgesPerEdge + 1`
sub-segments is emitted only when its parameter interval satisfies
`tStart < tEnd` (degenerate sub-segments are skipped).  `sqrt` stands for
`Math.sqrt` in the edge-length computation. -/
def generatePolygonWithBridges (cos sin sqrt : ℚ → ℚ) (pi : ℚ) (center : Pt)
    (radius : ℚ) (sides : ℕ) (rotationDeg : ℚ) (bridgeCount : ℕ)
    (bridgeWidth : ℚ) : List PathCmd :=
  let vertices := getPolygonVertices cos sin pi center radius sides rotationDeg
  let bridgesPerEdge := bridgeCount / sides
  let bridgeGap := bridgeWidth / 2
  ((List.range sides).map (fun i : ℕ =>
    let startVertex := vertices.getD i ⟨0, 0⟩
    let endVertex := vertices.getD ((i + 1) % sides) ⟨0, 0⟩
    let dx := endVertex.x - startVertex.x
    let dy := endVertex.y - startVertex.y
    let edgeLength := sqrt (dx * dx + dy * dy)
    if bridgesPerEdge = 0 then [moveTo startVertex, lineTo endVertex]
    else
      let segmentLength := edgeLength / ((bridgesPerEdge : ℚ) + 1)
      ((List.range (bridgesPerEdge + 1)).map (fun j : ℕ =>
        let tStart : ℚ :=
          if j = 0 then 0 else ((j : ℚ) * segmentLength + bridgeGap) / edgeLength
        let tEnd : ℚ :=
          if j = bridgesPerEdge then 1
          else (((j : ℚ) + 1) * segmentLength - bridgeGap) / edgeLength
        if tStart < tEnd then
          [moveTo (interpolate startVertex endVertex tStart),
           lineTo (interpolate startVertex endVertex tEnd)]
        else [])).flatten)).flatten

end Polygons

namespace Spirals

/-- Embeds the `SpiralType` union type. -/
inductive SpiralType where
  | logarithmic
  | archimedean
  | fermat
deriving DecidableEq, Repr

/-- One command of a spiral-arm path string.  The spiral generator bypasses
`PathBuilder`: it writes `M x y`, `L x y` and cubic-Bezier
`C x1 y1, x2 y2, x y` tokens with coordinates formatted by `toFixed(3)`
(three decimal places). -/
inductive SpiralCmd where
  | moveS (x y : ℚ)
  | lineS (x y : ℚ)
  | cubicS (x1 y1 x2 y2 x y : ℚ)
deriving DecidableEq, Repr

/-- Embeds `Number.prototype.toFixed(3)`: the value printed with exactly three
decimal places (rounding to the nearest thousandth; the tie-breaking rule is
never exercised by the theorems below). -/
def toFixed3 (x : ℚ) : ℚ := (jsRound (x * 1000) : ℚ) / 1000

/-- Embeds the private `calculateSpiralRadius(innerRadius, outerRadius, t,
spiralType, growthFactor)`; `sqrt`/`exp` stand for `Math.sqrt`/`Math.exp`. -/
def calculateSpiralRadius (sqrt exp : ℚ → ℚ) (innerRadius outerRadius t : ℚ)
    (spiralType : SpiralType) (growthFactor : ℚ) : ℚ :=
  let range := outerRadius - innerRadius
  match spiralType with
  | .logarithmic =>
    let expT := (exp (growthFactor * t * 10) - 1) / (exp (growthFactor * 10) - 1)
    innerRadius + range * expT
  | .archimedean => innerRadius + range * t
  | .fermat => innerRadius + range * sqrt t

/-- Embeds the sampling loop of `generateSpiralArm`:
`totalSegments = Math.ceil(turns * 32)` and one point for each
`i = 0 .. totalSegments` (so `totalSegments + 1` points when
`totalSegments ≥ 0`, none when it is negative). -/
def spiralPoints (cos sin sqrt exp : ℚ → ℚ) (center : Pt)
    (innerRadius outerRadius startAngle turns : ℚ) (spiralType : SpiralType)
    (growthFactor : ℚ) (pi : ℚ) : List Pt :=
  let totalSegments : ℤ := Int.ceil (turns * 32)
  (List.range (totalSegments + 1).toNat).map (fun i : ℕ =>
    let t : ℚ := (i : ℚ) / (totalSegments : ℚ)
    let angle := startAngle + t * turns * 2 * pi
    let radius := calculateSpiralRadius sqrt exp innerRadius outerRadius t
      spiralType growthFactor
    pointOnCircle cos sin center radius angle)

/-- Embeds the private `pointsToBezierPath(points)`: empty for fewer than two
points, a straight `M`+`L` for exactly two, otherwise an `M` followed by one
Catmull-Rom-derived cubic Bezier per consecutive pair (neighbors clamped at
the ends, tension `0.5`), all coordinates formatted with `toFixed(3)`. -/
def pointsToBezierPath (points : List Pt) : List SpiralCmd :=
  if points.length < 2 then []
  else if points.length = 2 then
    let p0 := points.getD 0 ⟨0, 0⟩
    let p1 := points.getD 1 ⟨0, 0⟩
    [.moveS (toFixed3 p0.x) (toFixed3 p0.y), .lineS (toFixed3 p1.x) (toFixed3 p1.y)]
  else
    let q0 := points.getD 0 ⟨0, 0⟩
    SpiralCmd.moveS (toFixed3 q0.x) (toFixed3 q0.y) ::
      (List.range (points.length - 1)).map (fun i =>
        let p0 := points.getD (i - 1) ⟨0, 0⟩
        let p1 := points.getD i ⟨0, 0⟩
        let p2 := points.getD (i + 1) ⟨0, 0⟩
        let p3 := points.getD (min (points.length - 1) (i + 2)) ⟨0, 0⟩
        let tension : ℚ := 1 / 2
        let cp1 : Pt := ⟨p1.x + (p2.x - p0.x) * tension / 3,
                         p1.y + (p2.y - p0.y) * tension / 3⟩
        let cp2 : Pt := ⟨p2.x - (p3.x - p1.x) * tension / 3,
                         p2.y - (p3.y - p1.y) * tension / 3⟩
        SpiralCmd.cubicS (toFixed3 cp1.x) (toFixed3 cp1.y)
          (toFixed3 cp2.x) (toFixed3 cp2.y) (toFixed3 p2.x) (toFixed3 p2.y))

/-- Embeds `generateSpiralArm(center, innerRadius, outerRadius, startAngle,
turns, spiralType, growthFactor)`. -/
def generateSpiralArm (cos sin sqrt exp : ℚ → ℚ) (center : Pt)
    (innerRadius outerRadius startAngle turns : ℚ) (spiralType : SpiralType)
    (growthFactor : ℚ) (pi : ℚ) : List SpiralCmd :=
  pointsToBezierPath
    (spiralPoints cos sin sqrt exp center innerRadius outerRadius startAngle
      turns spiralType growthFactor pi)

/-- Counts the `M` tokens of a spiral path. -/
def countMoveS (l : List SpiralCmd) : ℕ :=
  l.countP (fun c => match c with | .moveS _ _ => true | _ => false)

/-- Counts the `L` tokens of a spiral path. -/
def countLineS (l : List SpiralCmd) : ℕ :=
  l.countP (fun c => match c with | .lineS _ _ => true | _ => false)

/-- Counts the cubic-Bezier `C` tokens of a spiral path. -/
def countCubicS (l : List SpiralCmd) : ℕ :=
  l.countP (fun c => match c with | .cubicS _ _ _ _ _ _ => true | _ => false)

end Spirals

/-- Formalises the spec's invariant for one spacing-engine result: the
sequence is non-empty, its first element is exactly the supplied outer
extent, and adjacent elements strictly decrease (hence the whole sequence is
strictly decreasing from first to last). -/
def FirstAndStrictDecr (outer : ℚ) (l : List ℚ) : Prop :=
  l ≠ [] ∧ l.head? = some outer ∧ List.Chain' (· > ·) l

namespace Rings

/-- Per-mode non-degeneracy conditions for the ring spacing engine under
which the strict-decrease invariant holds (stated on the effective option
values after `||`-defaulting): effective inner extent below `outer` for the
interpolating modes, `PHI > 1` additionally for the golden-ratio mode, and a
positive effective gap with shrinkage below `1` for the shrinkage mode. -/
def goodSpacingInputs (phi outer : ℚ) (opts : RadiiOptions) : SpacingMode → Prop
  | .uniform => Spacing.orDefault opts.innerRadius (outer * (1 / 10)) < outer
  | .graduated => Spacing.orDefault opts.innerRadius (outer * (1 / 10)) < outer
  | .goldenRatio =>
    Spacing.orDefault opts.innerRadius (outer * (1 / 10)) < outer ∧ 1 < phi
  | .shrinkage =>
    0 < Spacing.orDefault opts.outerGap 18 ∧
      Spacing.orDefault opts.shrinkage (1 / 20) < 1

end Rings

namespace Squares

/-- Per-mode non-degeneracy conditions for the square spacing engine
(default outer gap `24`). -/
def goodSpacingInputs (outer : ℚ) (opts : SizeOptions) : SquareSpacingMode → Prop
  | .uniform => Spacing.orDefault opts.innerSize (outer * (1 / 10)) < outer
  | .graduated => Spacing.orDefault opts.innerSize (outer * (1 / 10)) < outer
  | .shrinkage =>
    0 < Spacing.orDefault opts.outerGap 24 ∧
      Spacing.orDefault opts.shrinkage (1 / 20) < 1

end Squares

namespace Polygons

/-- Per-mode non-degeneracy conditions for the polygon spacing engine
(default outer gap `24`). -/
def goodSpacingInputs (outer : ℚ) (opts : PolyOptions) : PolygonSpacingMode → Prop
  | .uniform => Spacing.orDefault opts.innerRadius (outer * (1 / 10)) < outer
  | .graduated => Spacing.orDefault opts.innerRadius (outer * (1 / 10)) < outer
  | .shrinkage =>
    0 < Spacing.orDefault opts.outerGap 24 ∧
      Spacing.orDefault opts.shrinkage (1 / 20) < 1

end Polygons

/-- States that a rational is exactly representable with two decimal places
(the claim's "coordinates rounded to 2 decimal places"). -/
def twoDec (x : ℚ) : Prop := (x * 100).den = 1

/-- States that a rational is exactly representable with three decimal
places (the precision `toFixed(3)` of the spiral generator). -/
def threeDec (x : ℚ) : Prop := (x * 1000).den = 1

/-- The output-path mini-language of the spec, checked on one `PathBuilder`
command: an `M`/`L`/`A`/`Z` token whose coordinates (and arc radii) carry two
decimal places, with `xrot` always `0`. -/
def builderCmd : PathCmd → Prop
  | .move x y => twoDec x ∧ twoDec y
  | .line x y => twoDec x ∧ twoDec y
  | .arc rx ry xrot _ _ x y => twoDec rx ∧ twoDec ry ∧ xrot = 0 ∧ twoDec x ∧ twoDec y
  | .close => True

namespace Spirals

/-- The claim's mini-language property instantiated on a spiral-path
command: only `M`/`L`/`A`/`Z` tokens are allowed (a cubic-Bezier `C` token is
none of these) and coordinates carry two decimal places. -/
def claimMiniLanguage : SpiralCmd → Prop
  | .moveS x y => twoDec x ∧ twoDec y
  | .lineS x y => twoDec x ∧ twoDec y
  | .cubicS _ _ _ _ _ _ => False

/-- What the spiral generator actually emits per command: `M`/`L`/`C` tokens
with three-decimal coordinates. -/
def spiralCmd3Dec : SpiralCmd → Prop
  | .moveS x y => threeDec x ∧ threeDec y
  | .lineS x y => threeDec x ∧ threeDec y
  | .cubicS x1 y1 x2 y2 x y =>
    threeDec x1 ∧ threeDec y1 ∧ threeDec x2 ∧ threeDec y2 ∧ threeDec x ∧ threeDec y

end Spirals

/-- Rational stand-in for `Math.cos` at concrete evaluations whose only
consumed input is `0`, where it agrees with the real cosine. -/
def cosAt0 (x : ℚ) : ℚ := if x = 0 then 1 else 0

/-- Rational stand-in for `Math.sin` at concrete evaluations whose consumed
inputs all have sine `0`. -/
def sinAt0 (_ : ℚ) : ℚ := 0

/-- Rational stand-in for an arbitrary transcendental parameter at concrete
evaluations whose conclusion does not depend on its values. -/
def zeroFun (_ : ℚ) : ℚ := 0

/-- Rational stand-in for `Math.cos` on the four vertex angles of an upright
4-gon (`-π/2, 0, π/2, π` with `π` instantiated as `355/113`), where it agrees
with the real cosine. -/
def cosSq (x : ℚ) : ℚ := if x = 0 then 1 else if x = 355 / 113 then -1 else 0

/-- Rational stand-in for `Math.sin` on the same four vertex angles. -/
def sinSq (x : ℚ) : ℚ :=
  if x = -(355 / 113) / 2 then -1 else if x = 355 / 113 / 2 then 1 else 0

/-- The ring element at position `i` of a generated pattern (the default is
only used out of range). -/
def Rings.ringAt (p : Rings.GeneratedPattern) (i : ℕ) : Rings.GeneratedRing :=
  p.rings.getD i ⟨0, 0, 0, []⟩

/-- The arc angle computed by `generateRingWithCuts`:
`2π/cutCount - cutWidth/radius`. -/
def Rings.arcAngleOf (pi : ℚ) (cutCount : ℕ) (cutWidth radius : ℚ) : ℚ :=
  2 * pi / (cutCount : ℚ) - cutWidth / radius

/-- Concrete ring configuration used for witness evaluations: outer radius
100, explicit inner radius 10, 2 rings, uniform spacing, 4 cuts of width 8,
grid of 16, stagger offset 1. -/
def ringCfgW : Rings.RingPatternConfig :=
  ⟨100, 10, 2, .uniform, 18, 1 / 20, 4, 16, 1, 8, true, none⟩

/-- Rational stand-in for `Math.sqrt` exact at the two inputs reached by the
concrete notched-square evaluation (`100² = 10000` and `200² = 40000`), where
it agrees with the real square root. -/
def sqrtW (x : ℚ) : ℚ := if x = 10000 then 100 else if x = 40000 then 200 else 0

/-- Rational stand-in with constant value `1`, used where a conclusion holds
for every positive value of the abstracted `Math.sqrt`. -/
def oneFun (_ : ℚ) : ℚ := 1

/-- The edge length computed by `generatePolygonWithBridges` for edge `i`. -/
def Polygons.edgeLen (cos sin sqrt : ℚ → ℚ) (pi : ℚ) (center : Pt) (radius : ℚ)
    (sides : ℕ) (rotationDeg : ℚ) (i : ℕ) : ℚ :=
  let vertices := Polygons.getPolygonVertices cos sin pi center radius sides rotationDeg
  let startVertex := vertices.getD i ⟨0, 0⟩
  let endVertex := vertices.getD ((i + 1) % sides) ⟨0, 0⟩
  let dx := endVertex.x - startVertex.x
  let dy := endVertex.y - startVertex.y
  sqrt (dx * dx + dy * dy)

lemma getD_map_range {α : Type} (f : ℕ → α) (d : α) {n i : ℕ} (h : i < n) :
    ((List.range n).map f).getD i d = f i := by
  rw [List.getD_eq_getElem?_getD, List.getElem?_map, List.getElem?_range h]
  rfl

lemma shrinkageLoop_pos (mult : ℚ) :
    ∀ (n : ℕ) (current gap x : ℚ), x ∈ Spacing.shrinkageLoop mult n current gap → 0 < x := by
  intro n
  induction n with
  | zero => intro _ _ x hx; simp [Spacing.shrinkageLoop] at hx
  | succ m ih =>
    intro current gap x hx
    rcases le_or_lt (current - gap) 0 with hr | hr
    · simp [Spacing.shrinkageLoop, hr] at hx
    · rw [Spacing.shrinkageLoop] at hx
      simp only [if_neg (not_le.mpr hr)] at hx
      rcases List.mem_cons.mp hx with rfl | hx'
      · exact hr
      · exact ih _ _ x hx'

lemma shrinkageLoop_length (mult : ℚ) :
    ∀ (n : ℕ) (current gap : ℚ), (Spacing.shrinkageLoop mult n current gap).length ≤ n := by
  intro n
  induction n with
  | zero => intro _ _; simp [Spacing.shrinkageLoop]
  | succ m ih =>
    intro current gap
    rcases le_or_lt (current - gap) 0 with hr | hr
    · simp [Spacing.shrinkageLoop, hr]
    · rw [Spacing.shrinkageLoop]
      simp only [if_neg (not_le.mpr hr), List.length_cons]
      exact Nat.succ_le_succ (ih _ _)

lemma shrinkageLoop_chain (mult : ℚ) (hm : 0 < mult) :
    ∀ (n : ℕ) (current gap : ℚ), 0 < gap →
      List.Chain' (· > ·) (current :: Spacing.shrinkageLoop mult n current gap) := by
  intro n
  induction n with
  | zero => intro current gap _; simp [Spacing.shrinkageLoop]
  | succ m ih =>
    intro current gap hg
    rw [Spacing.shrinkageLoop]
    rcases le_or_lt (current - gap) 0 with hr | hr
    · simp [hr]
    · simp only [if_neg (not_le.mpr hr)]
      rw [List.chain'_cons]
      exact ⟨by linarith, ih (current - gap) (gap * mult) (mul_pos hg hm)⟩

lemma subScan_chain :
    ∀ (gs : List ℚ) (a : ℚ), (∀ g ∈ gs, 0 < g) →
      List.Chain' (· > ·) (a :: Spacing.subScan a gs) := by
  intro gs
  induction gs with
  | nil => intro a _; simp [Spacing.subScan]
  | cons g gs ih =>
    intro a hpos
    rw [Spacing.subScan, List.chain'_cons]
    constructor
    · have := hpos g (by simp)
      linarith
    · exact ih (a - g) (fun x hx => hpos x (by simp [hx]))

lemma chain'_gt_map_range (f : ℕ → ℚ) (n : ℕ)
    (h : ∀ m, m + 1 < n → f (m + 1) < f m) :
    List.Chain' (· > ·) ((List.range n).map f) := by
  cases n with
  | zero => simp
  | succ k =>
    rw [List.chain'_map]
    refine (List.chain'_range_succ _ k).mpr ?_
    intro m hm
    exact h m (by omega)

lemma uniformSeq_FASD {outer inner : ℚ} {count : ℕ} (h : inner < outer)
    (hc : 2 ≤ count) : FirstAndStrictDecr outer (Spacing.uniformSeq outer inner count) := by
  obtain ⟨n, rfl⟩ : ∃ n, count = n + 1 := ⟨count - 1, by omega⟩
  have hn : 1 ≤ n := by omega
  have hnq : (0 : ℚ) < (n : ℚ) := by exact_mod_cast hn
  have hD : ((n + 1 : ℕ) : ℚ) - 1 = (n : ℚ) := by push_cast; ring
  have hrange : (0 : ℚ) < outer - inner := by linarith
  refine ⟨?_, ?_, ?_⟩
  · simp [Spacing.uniformSeq, List.range_succ_eq_map]
  · simp [Spacing.uniformSeq, List.range_succ_eq_map]
  · rw [Spacing.uniformSeq]
    refine chain'_gt_map_range _ _ ?_
    intro m hm
    rw [hD]
    have hlt : ((m : ℚ) / (n : ℚ)) < (((m + 1 : ℕ) : ℚ) / (n : ℚ)) := by
      rw [div_lt_div_iff_of_pos_right hnq]
      exact_mod_cast Nat.lt_succ_self m
    have := mul_lt_mul_of_pos_left hlt hrange
    linarith

lemma graduatedSeq_FASD {outer inner : ℚ} {count : ℕ} (h : inner < outer)
    (hc : 2 ≤ count) : FirstAndStrictDecr outer (Spacing.graduatedSeq outer inner count) := by
  obtain ⟨n, rfl⟩ : ∃ n, count = n + 1 := ⟨count - 1, by omega⟩
  have hn : 1 ≤ n := by omega
  have hnq : (0 : ℚ) < (n : ℚ) := by exact_mod_cast hn
  have hD : ((n + 1 : ℕ) : ℚ) - 1 = (n : ℚ) := by push_cast; ring
  have hrange : (0 : ℚ) < outer - inner := by linarith
  refine ⟨?_, ?_, ?_⟩
  · simp [Spacing.graduatedSeq, List.range_succ_eq_map]
  · simp [Spacing.graduatedSeq, List.range_succ_eq_map]
  · rw [Spacing.graduatedSeq]
    refine chain'_gt_map_range _ _ ?_
    intro m hm
    rw [hD]
    have hmt : (0 : ℚ) ≤ (m : ℚ) / (n : ℚ) := by positivity
    have hlt : ((m : ℚ) / (n : ℚ)) < (((m + 1 : ℕ) : ℚ) / (n : ℚ)) := by
      rw [div_lt_div_iff_of_pos_right hnq]
      exact_mod_cast Nat.lt_succ_self m
    have hsq := mul_self_lt_mul_self hmt hlt
    have := mul_lt_mul_of_pos_left hsq hrange
    simp only
    linarith

lemma shrinkageSeq_FASD {outer gap s : ℚ} {count : ℕ} (hg : 0 < gap) (hs : s < 1)
    (hc : 2 ≤ count) : FirstAndStrictDecr outer (Spacing.shrinkageSeq outer count gap s) := by
  have h0 : count ≠ 0 := by omega
  have h1 : count ≠ 1 := by omega
  rw [Spacing.shrinkageSeq, if_neg h0, if_neg h1]
  refine ⟨by simp, by simp, ?_⟩
  exact shrinkageLoop_chain (1 - s) (by linarith) (count - 1) outer gap hg

lemma goldenRatioSum_pos {phi : ℚ} (hphi : 1 < phi) {n : ℕ} (hn : n ≠ 0) :
    0 < Rings.goldenRatioSum phi n := by
  rw [Rings.goldenRatioSum, if_neg hn]
  apply div_pos
  · have : 1 < phi ^ n := one_lt_pow₀ hphi hn
    linarith
  · linarith

lemma calculateRadii_golden (phi outer : ℚ) (count : ℕ)
    (opts : Rings.RadiiOptions) (h0 : count ≠ 0) (h1 : count ≠ 1) :
    Rings.calculateRadii phi outer count .goldenRatio opts =
      outer :: Spacing.subScan outer
        ((List.range (count - 1)).map (fun j =>
          ((outer - Spacing.orDefault opts.innerRadius (outer * (1 / 10))) /
            Rings.goldenRatioSum phi (count - 1)) * phi ^ (count - 2 - j))) := by
  simp [Rings.calculateRadii, h0, h1]

lemma goldenSeq_FASD {phi outer : ℚ} {count : ℕ} (opts : Rings.RadiiOptions)
    (h : Spacing.orDefault opts.innerRadius (outer * (1 / 10)) < outer)
    (hphi : 1 < phi) (hc : 2 ≤ count) :
    FirstAndStrictDecr outer (Rings.calculateRadii phi outer count .goldenRatio opts) := by
  rw [calculateRadii_golden phi outer count opts (by omega) (by omega)]
  refine ⟨by simp, by simp, ?_⟩
  apply subScan_chain
  intro g hg
  rw [List.mem_map] at hg
  obtain ⟨j, _, rfl⟩ := hg
  have hS : 0 < Rings.goldenRatioSum phi (count - 1) :=
    goldenRatioSum_pos hphi (by omega)
  exact mul_pos (div_pos (by linarith) hS) (pow_pos (by linarith) _)

lemma uniformSeq_head {outer inner : ℚ} {count : ℕ} (hc : 2 ≤ count) :
    Spacing.uniformSeq outer inner count ≠ []
    ∧ (Spacing.uniformSeq outer inner count).head? = some outer := by
  obtain ⟨n, rfl⟩ : ∃ n, count = n + 1 := ⟨count - 1, by omega⟩
  constructor
  · simp [Spacing.uniformSeq, List.range_succ_eq_map]
  · simp [Spacing.uniformSeq, List.range_succ_eq_map]

lemma graduatedSeq_head {outer inner : ℚ} {count : ℕ} (hc : 2 ≤ count) :
    Spacing.graduatedSeq outer inner count ≠ []
    ∧ (Spacing.graduatedSeq outer inner count).head? = some outer := by
  obtain ⟨n, rfl⟩ : ∃ n, count = n + 1 := ⟨count - 1, by omega⟩
  constructor
  · simp [Spacing.graduatedSeq, List.range_succ_eq_map]
  · simp [Spacing.graduatedSeq, List.range_succ_eq_map]

lemma shrinkageSeq_head {outer gap s : ℚ} {count : ℕ} (hc : 2 ≤ count) :
    Spacing.shrinkageSeq outer count gap s ≠ []
    ∧ (Spacing.shrinkageSeq outer count gap s).head? = some outer := by
  rw [Spacing.shrinkageSeq, if_neg (by omega : ¬ count = 0), if_neg (by omega : ¬ count = 1)]
  exact ⟨List.cons_ne_nil _ _, rfl⟩

lemma goldenSeq_head (phi outer : ℚ) {count : ℕ} (opts : Rings.RadiiOptions)
    (hc : 2 ≤ count) :
    Rings.calculateRadii phi outer count .goldenRatio opts ≠ []
    ∧ (Rings.calculateRadii phi outer count .goldenRatio opts).head? = some outer := by
  rw [calculateRadii_golden phi outer count opts (by omega) (by omega)]
  exact ⟨List.cons_ne_nil _ _, rfl⟩

/-- C1 (amended): for every spacing engine (`calculateRadii`,
`calculateSquareSizes`, `calculatePolygonRadii`), every mode, every option
record and every `count ≥ 2`, the returned sequence is non-empty and its
first element is exactly the supplied outer extent — unconditionally; it is
moreover strictly decreasing whenever the mode's effective parameters are
non-degenerate (`goodSpacingInputs`): effective inner extent below `outer`
for the interpolating modes (plus `PHI > 1` for the golden-ratio mode, true
of the golden ratio), and a positive effective outer gap with shrinkage
factor `< 1` for the shrinkage mode. -/
theorem spacing_first_elem_outer_and_strict_decreasing
    (phi outer : ℚ) (count : ℕ) (hc : 2 ≤ count) :
    (∀ (mode : Rings.SpacingMode) (opts : Rings.RadiiOptions),
        Rings.calculateRadii phi outer count mode opts ≠ []
        ∧ (Rings.calculateRadii phi outer count mode opts).head? = some outer
        ∧ (Rings.goodSpacingInputs phi outer opts mode →
            List.Chain' (· > ·) (Rings.calculateRadii phi outer count mode opts)))
    ∧ (∀ (mode : Squares.SquareSpacingMode) (opts : Squares.SizeOptions),
        Squares.calculateSquareSizes outer count mode opts ≠ []
        ∧ (Squares.calculateSquareSizes outer count mode opts).head? = some outer
        ∧ (Squares.goodSpacingInputs outer opts mode →
            List.Chain' (· > ·) (Squares.calculateSquareSizes outer count mode opts)))
    ∧ (∀ (mode : Polygons.PolygonSpacingMode) (opts : Polygons.PolyOptions),
        Polygons.calculatePolygonRadii outer count mode opts ≠ []
        ∧ (Polygons.calculatePolygonRadii outer count mode opts).head? = some outer
        ∧ (Polygons.goodSpacingInputs outer opts mode →
            List.Chain' (· > ·) (Polygons.calculatePolygonRadii outer count mode opts))) := by
  have h0 : count ≠ 0 := by omega
  have h1 : count ≠ 1 := by omega
  refine ⟨?_, ?_, ?_⟩
  · intro mode opts
    cases mode with
    | uniform =>
      rw [show Rings.calculateRadii phi outer count .uniform opts
          = Spacing.uniformSeq outer
              (Spacing.orDefault opts.innerRadius (outer * (1 / 10))) count by
        simp [Rings.calculateRadii, h0, h1]]
      exact ⟨(uniformSeq_head hc).1, (uniformSeq_head hc).2,
        fun hgood => (uniformSeq_FASD hgood hc).2.2⟩
    | graduated =>
      rw [show Rings.calculateRadii phi outer count .graduated opts
          = Spacing.graduatedSeq outer
              (Spacing.orDefault opts.innerRadius (outer * (1 / 10))) count by
        simp [Rings.calculateRadii, h0, h1]]
      exact ⟨(graduatedSeq_head hc).1, (graduatedSeq_head hc).2,
        fun hgood => (graduatedSeq_FASD hgood hc).2.2⟩
    | shrinkage =>
      rw [show Rings.calculateRadii phi outer count .shrinkage opts
          = Spacing.shrinkageSeq outer count
              (Spacing.orDefault opts.outerGap 18)
              (Spacing.orDefault opts.shrinkage (1 / 20)) by
        simp [Rings.calculateRadii, Rings.calculateShrinkageRadii, h0, h1]]
      exact ⟨(shrinkageSeq_head hc).1, (shrinkageSeq_head hc).2,
        fun hgood => (shrinkageSeq_FASD hgood.1 hgood.2 hc).2.2⟩
    | goldenRatio =>
      exact ⟨(goldenSeq_head phi outer opts hc).1, (goldenSeq_head phi outer opts hc).2,
        fun hgood => (goldenSeq_FASD opts hgood.1 hgood.2 hc).2.2⟩
  · intro mode opts
    cases mode with
    | uniform =>
      rw [show Squares.calculateSquareSizes outer count .uniform opts
          = Spacing.uniformSeq outer
              (Spacing.orDefault opts.innerSize (outer * (1 / 10))) count by
        simp [Squares.calculateSquareSizes, h0, h1]]
      exact ⟨(uniformSeq_head hc).1, (uniformSeq_head hc).2,
        fun hgood => (uniformSeq_FASD hgood hc).2.2⟩
    | graduated =>
      rw [show Squares.calculateSquareSizes outer count .graduated opts
          = Spacing.graduatedSeq outer
              (Spacing.orDefault opts.innerSize (outer * (1 / 10))) count by
        simp [Squares.calculateSquareSizes, h0, h1]]
      exact ⟨(graduatedSeq_head hc).1, (graduatedSeq_head hc).2,
        fun hgood => (graduatedSeq_FASD hgood hc).2.2⟩
    | shrinkage =>
      rw [show Squares.calculateSquareSizes outer count .shrinkage opts
          = Spacing.shrinkageSeq outer count
              (Spacing.orDefault opts.outerGap 24)
              (Spacing.orDefault opts.shrinkage (1 / 20)) by
        simp [Squares.calculateSquareSizes, Squares.calculateShrinkageSizes, h0, h1]]
      exact ⟨(shrinkageSeq_head hc).1, (shrinkageSeq_head hc).2,
        fun hgood => (shrinkageSeq_FASD hgood.1 hgood.2 hc).2.2⟩
  · intro mode opts
    cases mode with
    | uniform =>
      rw [show Polygons.calculatePolygonRadii outer count .uniform opts
          = Spacing.uniformSeq outer
              (Spacing.orDefault opts.innerRadius (outer * (1 / 10))) count by
        simp [Polygons.calculatePolygonRadii, h0, h1]]
      exact ⟨(uniformSeq_head hc).1, (uniformSeq_head hc).2,
        fun hgood => (uniformSeq_FASD hgood hc).2.2⟩
    | graduated =>
      rw [show Polygons.calculatePolygonRadii outer count .graduated opts
          = Spacing.graduatedSeq outer
              (Spacing.orDefault opts.innerRadius (outer * (1 / 10))) count by
        simp [Polygons.calculatePolygonRadii, h0, h1]]
      exact ⟨(graduatedSeq_head hc).1, (graduatedSeq_head hc).2,
        fun hgood => (graduatedSeq_FASD hgood hc).2.2⟩
    | shrinkage =>
      rw [show Polygons.calculatePolygonRadii outer count .shrinkage opts
          = Spacing.shrinkageSeq outer count
              (Spacing.orDefault opts.outerGap 24)
              (Spacing.orDefault opts.shrinkage (1 / 20)) by
        simp [Polygons.calculatePolygonRadii, Polygons.calculateShrinkageRadii, h0, h1]]
      exact ⟨(shrinkageSeq_head hc).1, (shrinkageSeq_head hc).2,
        fun hgood => (shrinkageSeq_FASD hgood.1 hgood.2 hc).2.2⟩

/-- C1 counterexample: with `count = 2` and an explicit inner radius equal to
the outer radius (a legal call), uniform mode returns `[10, 10]`, which is
not strictly decreasing, refuting the claim as universally stated. -/
theorem spacing_equal_inner_not_strictly_decreasing :
    Rings.calculateRadii 2 10 2 .uniform ⟨some 10, none, none⟩ = [10, 10] ∧
      ¬ List.Chain' (· > ·) (Rings.calculateRadii 2 10 2 .uniform ⟨some 10, none, none⟩) := by
  have h : Rings.calculateRadii 2 10 2 .uniform ⟨some 10, none, none⟩ = [10, 10] := by
    norm_num [Rings.calculateRadii, Spacing.uniformSeq, Spacing.orDefault, List.range_succ]
  refine ⟨h, ?_⟩
  rw [h]
  rw [List.chain'_cons]
  rintro ⟨h10, -⟩
  exact absurd h10 (by norm_num)

/-- C1 witness: a concrete non-degenerate instance of the amended claim —
non-emptiness, first element `100`, and the strictly-decreasing conclusion
with the non-degeneracy condition discharged. -/
theorem spacing_first_elem_outer_witness :
    2 ≤ 3 ∧
      (Rings.calculateRadii 2 100 3 .uniform ⟨none, none, none⟩ ≠ []
        ∧ (Rings.calculateRadii 2 100 3 .uniform ⟨none, none, none⟩).head? = some 100
        ∧ List.Chain' (· > ·) (Rings.calculateRadii 2 100 3 .uniform ⟨none, none, none⟩)) := by
  have h := (spacing_first_elem_outer_and_strict_decreasing 2 100 3 (by norm_num)).1
    .uniform ⟨none, none, none⟩
  exact ⟨by norm_num, h.1, h.2.1,
    h.2.2 (by norm_num [Rings.goodSpacingInputs, Spacing.orDefault])⟩

lemma shrinkageSeq_pos {outer : ℚ} (houter : 0 < outer) (count : ℕ) (gap s : ℚ) :
    ∀ x ∈ Spacing.shrinkageSeq outer count gap s, 0 < x := by
  intro x hx
  rw [Spacing.shrinkageSeq] at hx
  split at hx
  · exact absurd hx (List.not_mem_nil x)
  · split at hx
    · rw [List.mem_singleton] at hx
      exact hx ▸ houter
    · rcases List.mem_cons.mp hx with rfl | hx'
      · exact houter
      · exact shrinkageLoop_pos _ _ _ _ _ hx'

lemma shrinkageSeq_length (outer : ℚ) (count : ℕ) (gap s : ℚ) :
    (Spacing.shrinkageSeq outer count gap s).length ≤ count := by
  rw [Spacing.shrinkageSeq]
  split_ifs with h0 h1
  · simp
  · simp [h1]
  · have := shrinkageLoop_length (1 - s) (count - 1) outer gap
    simp only [List.length_cons]
    omega

/-- C2 (amended): for every positive outer extent, every count, outer gap and
shrinkage, the shrinkage-mode engines return only strictly positive extents
and never more than the requested count of them; the iteration stops at the
first extent that would be `≤ 0` (final conjunct: a concrete run that is
truncated below the requested count). -/
theorem shrinkage_positive_and_truncating (outer outerGap shrinkage : ℚ)
    (count : ℕ) (houter : 0 < outer) :
    (∀ x ∈ Rings.calculateShrinkageRadii outer count outerGap shrinkage, 0 < x)
    ∧ (Rings.calculateShrinkageRadii outer count outerGap shrinkage).length ≤ count
    ∧ (∀ x ∈ Squares.calculateShrinkageSizes outer count outerGap shrinkage, 0 < x)
    ∧ (Squares.calculateShrinkageSizes outer count outerGap shrinkage).length ≤ count
    ∧ (∀ x ∈ Polygons.calculateShrinkageRadii outer count outerGap shrinkage, 0 < x)
    ∧ (Polygons.calculateShrinkageRadii outer count outerGap shrinkage).length ≤ count
    ∧ (Rings.calculateShrinkageRadii 300 5 400 (1 / 10)).length < 5 := by
  refine ⟨shrinkageSeq_pos houter count outerGap shrinkage,
    shrinkageSeq_length _ _ _ _,
    shrinkageSeq_pos houter count outerGap shrinkage,
    shrinkageSeq_length _ _ _ _,
    shrinkageSeq_pos houter count outerGap shrinkage,
    shrinkageSeq_length _ _ _ _, ?_⟩
  norm_num [Rings.calculateShrinkageRadii, Spacing.shrinkageSeq, Spacing.shrinkageLoop]

/-- C2 counterexample: the claim quantifies over every outer extent, but with
outer extent `0` the returned sequence is `[0]` — a zero extent is included
in the result, refuting the claim as stated. -/
theorem shrinkage_zero_outer_in_result :
    Rings.calculateShrinkageRadii 0 2 18 (1 / 20) = [0] ∧
      ¬ (∀ x ∈ Rings.calculateShrinkageRadii 0 2 18 (1 / 20), 0 < x) := by
  have h : Rings.calculateShrinkageRadii 0 2 18 (1 / 20) = [0] := by
    norm_num [Rings.calculateShrinkageRadii, Spacing.shrinkageSeq, Spacing.shrinkageLoop]
  refine ⟨h, ?_⟩
  rw [h]
  intro hall
  exact absurd (hall 0 (by simp)) (by norm_num)

/-- C2 witness: a concrete positive-outer instance of the amended claim. -/
theorem shrinkage_positive_witness :
    (0 : ℚ) < 300 ∧ ∀ x ∈ Rings.calculateShrinkageRadii 300 5 20 (1 / 10), 0 < x :=
  ⟨by norm_num, (shrinkage_positive_and_truncating 300 20 (1 / 10) 5 (by norm_num)).1⟩

/-- C9: `calculateStaggeredRotation(ringIndex, gridDivisions, staggerOffset)`
returns exactly `0` for every even ring index and
`staggerOffset * (2π / gridDivisions)` for every odd one, for all positive
grid divisions and all stagger offsets. -/
theorem staggered_rotation_even_odd (pi gridDivisions staggerOffset : ℚ)
    (ringIndex : ℕ) (hdiv : 0 < gridDivisions) :
    (ringIndex % 2 = 0 →
      Rings.calculateStaggeredRotation pi ringIndex gridDivisions staggerOffset = 0)
    ∧ (ringIndex % 2 = 1 →
      Rings.calculateStaggeredRotation pi ringIndex gridDivisions staggerOffset
        = staggerOffset * (2 * pi / gridDivisions)) := by
  constructor
  · intro h
    simp [Rings.calculateStaggeredRotation, h]
  · intro h
    simp [Rings.calculateStaggeredRotation, h]

/-- C9 witness: grid of 16 divisions, stagger offset 1, ring indices 2 and 3
(with `π` instantiated rationally; the theorem holds for every value of the
`pi` parameter). -/
theorem staggered_rotation_witness :
    (0 : ℚ) < 16 ∧
      Rings.calculateStaggeredRotation (355 / 113) 2 16 1 = 0 ∧
      Rings.calculateStaggeredRotation (355 / 113) 3 16 1 = 1 * (2 * (355 / 113) / 16) := by
  refine ⟨by norm_num, ?_, ?_⟩
  · exact (staggered_rotation_even_odd (355 / 113) 16 1 2 (by norm_num)).1 (by norm_num)
  · exact (staggered_rotation_even_odd (355 / 113) 16 1 3 (by norm_num)).2 (by norm_num)

/-- C10: an explicit `0` for `innerRadius`/`innerSize`, `outerGap` or
`shrinkage` behaves exactly as if the option had been omitted (conjuncts
1-3), the omitted-option shrinkage defaults are `outerGap = 18` for rings and
`24` for squares and polygons with `shrinkage = 0.05` (conjuncts 4-6), and an
explicit inner extent of `0` selects the built-in default `outer * 0.1`
(final conjunct). -/
theorem explicit_zero_options_use_defaults (phi outer : ℚ) (count : ℕ)
    (modeR : Rings.SpacingMode) (modeS : Squares.SquareSpacingMode)
    (modeP : Polygons.PolygonSpacingMode) :
    (Rings.calculateRadii phi outer count modeR ⟨some 0, some 0, some 0⟩ =
      Rings.calculateRadii phi outer count modeR ⟨none, none, none⟩)
    ∧ (Squares.calculateSquareSizes outer count modeS ⟨some 0, some 0, some 0⟩ =
      Squares.calculateSquareSizes outer count modeS ⟨none, none, none⟩)
    ∧ (Polygons.calculatePolygonRadii outer count modeP ⟨some 0, some 0, some 0⟩ =
      Polygons.calculatePolygonRadii outer count modeP ⟨none, none, none⟩)
    ∧ (Rings.calculateRadii phi outer count .shrinkage ⟨none, none, none⟩ =
      Rings.calculateShrinkageRadii outer count 18 (1 / 20))
    ∧ (Squares.calculateSquareSizes outer count .shrinkage ⟨none, none, none⟩ =
      Squares.calculateShrinkageSizes outer count 24 (1 / 20))
    ∧ (Polygons.calculatePolygonRadii outer count .shrinkage ⟨none, none, none⟩ =
      Polygons.calculateShrinkageRadii outer count 24 (1 / 20))
    ∧ (Rings.calculateRadii phi outer count .uniform ⟨some 0, none, none⟩ =
      if count = 0 then [] else if count = 1 then [outer]
      else Spacing.uniformSeq outer (outer * (1 / 10)) count) := by
  refine ⟨?_, ?_, ?_, ?_, ?_, ?_, ?_⟩
  · cases modeR <;> simp [Rings.calculateRadii, Spacing.orDefault]
  · cases modeS <;> simp [Squares.calculateSquareSizes, Spacing.orDefault]
  · cases modeP <;> simp [Polygons.calculatePolygonRadii, Spacing.orDefault]
  · by_cases h0 : count = 0
    · simp [Rings.calculateRadii, Rings.calculateShrinkageRadii, Spacing.shrinkageSeq, h0]
    · by_cases h1 : count = 1 <;>
        simp [Rings.calculateRadii, Rings.calculateShrinkageRadii, Spacing.shrinkageSeq,
          Spacing.orDefault, h0, h1]
  · by_cases h0 : count = 0
    · simp [Squares.calculateSquareSizes, Squares.calculateShrinkageSizes,
        Spacing.shrinkageSeq, h0]
    · by_cases h1 : count = 1 <;>
        simp [Squares.calculateSquareSizes, Squares.calculateShrinkageSizes,
          Spacing.shrinkageSeq, Spacing.orDefault, h0, h1]
  · by_cases h0 : count = 0
    · simp [Polygons.calculatePolygonRadii, Polygons.calculateShrinkageRadii,
        Spacing.shrinkageSeq, h0]
    · by_cases h1 : count = 1 <;>
        simp [Polygons.calculatePolygonRadii, Polygons.calculateShrinkageRadii,
          Spacing.shrinkageSeq, Spacing.orDefault, h0, h1]
  · by_cases h0 : count = 0
    · simp [Rings.calculateRadii, h0]
    · by_cases h1 : count = 1 <;>
        simp [Rings.calculateRadii, Spacing.orDefault, h0, h1]

lemma countMoves_circleToPath (center : Pt) (radius : ℚ) :
    countMoves (circleToPath center radius) = 1 := rfl

lemma countMoves_generateArc (cos sin : ℚ → ℚ) (pi : ℚ) (center : Pt)
    (radius a b : ℚ) :
    countMoves (Rings.generateArc cos sin pi center radius a b) = 1 := rfl

lemma sum_map_range_const_one (n : ℕ) (f : ℕ → ℕ) (h : ∀ i, f i = 1) :
    ((List.range n).map f).sum = n := by
  induction n with
  | zero => simp
  | succ m ih =>
    rw [List.range_succ, List.map_append, List.sum_append, ih]
    simp [h]

lemma generateRingWithCuts_circle_of_nonpos (cos sin : ℚ → ℚ) (pi : ℚ)
    (center : Pt) (radius : ℚ) (cutCount : ℕ) (cutWidth rotation : ℚ)
    (hcc : cutCount ≠ 0) (h : Rings.arcAngleOf pi cutCount cutWidth radius ≤ 0) :
    Rings.generateRingWithCuts cos sin pi center radius cutCount cutWidth rotation
      = circleToPath center radius := by
  rw [Rings.generateRingWithCuts, if_neg hcc]
  exact if_pos h

lemma generateRingWithCuts_count_of_pos (cos sin : ℚ → ℚ) (pi : ℚ)
    (center : Pt) (radius : ℚ) (cutCount : ℕ) (cutWidth rotation : ℚ)
    (hcc : cutCount ≠ 0) (h : 0 < Rings.arcAngleOf pi cutCount cutWidth radius) :
    countMoves (Rings.generateRingWithCuts cos sin pi center radius cutCount cutWidth rotation)
      = cutCount := by
  rw [Rings.generateRingWithCuts, if_neg hcc]
  have hcond : ¬ (2 * pi / (cutCount : ℚ) - cutWidth / radius ≤ 0) := not_le.mpr h
  rw [if_neg hcond]
  rw [countMoves, List.countP_flatten, List.map_map]
  exact sum_map_range_const_one cutCount _ (fun i => rfl)

lemma generateRingPattern_rings_length (cos sin : ℚ → ℚ) (pi phi : ℚ)
    (cfg : Rings.RingPatternConfig) :
    (Rings.generateRingPattern cos sin pi phi cfg).rings.length =
      (Rings.calculateRadii phi cfg.outerRadius cfg.ringCount cfg.spacingMode
        ⟨some cfg.innerRadius, some cfg.outerGap, some cfg.shrinkage⟩).length := by
  simp [Rings.generateRingPattern]

lemma generateRingPattern_center (cos sin : ℚ → ℚ) (pi phi : ℚ)
    (cfg : Rings.RingPatternConfig) :
    (Rings.generateRingPattern cos sin pi phi cfg).center =
      cfg.center.getD ⟨cfg.outerRadius, cfg.outerRadius⟩ := rfl

lemma generateRingPattern_ringAt (cos sin : ℚ → ℚ) (pi phi : ℚ)
    (cfg : Rings.RingPatternConfig) (i : ℕ)
    (hi : i < (Rings.calculateRadii phi cfg.outerRadius cfg.ringCount cfg.spacingMode
        ⟨some cfg.innerRadius, some cfg.outerGap, some cfg.shrinkage⟩).length) :
    Rings.ringAt (Rings.generateRingPattern cos sin pi phi cfg) i =
      { index := i
        radius := (Rings.calculateRadii phi cfg.outerRadius cfg.ringCount cfg.spacingMode
          ⟨some cfg.innerRadius, some cfg.outerGap, some cfg.shrinkage⟩).getD i 0
        rotation := Rings.calculateStaggeredRotation pi i cfg.gridDivisions cfg.staggerOffset
        pathData :=
          if i = 0 ∨ cfg.cutCount = 0 then
            circleToPath (cfg.center.getD ⟨cfg.outerRadius, cfg.outerRadius⟩)
              ((Rings.calculateRadii phi cfg.outerRadius cfg.ringCount cfg.spacingMode
                ⟨some cfg.innerRadius, some cfg.outerGap, some cfg.shrinkage⟩).getD i 0)
          else
            Rings.generateRingWithCuts cos sin pi
              (cfg.center.getD ⟨cfg.outerRadius, cfg.outerRadius⟩)
              ((Rings.calculateRadii phi cfg.outerRadius cfg.ringCount cfg.spacingMode
                ⟨some cfg.innerRadius, some cfg.outerGap, some cfg.shrinkage⟩).getD i 0)
              cfg.cutCount cfg.cutWidth
              (Rings.calculateStaggeredRotation pi i cfg.gridDivisions cfg.staggerOffset) } := by
  rw [Rings.ringAt]
  simp only [Rings.generateRingPattern]
  exact getD_map_range _ _ hi

/-- C3: in `generateRingPattern`, for every configuration, the ring at index
0 is rendered as the solid closed circle `circleToPath` (one `M` token, i.e.
a single sub-path) regardless of `cutCount`; every ring at index `≥ 1` with
`cutCount > 0` and non-zero radius is segmented into exactly `cutCount` arc
sub-paths when the computed arc angle `2π/cutCount - cutWidth/radius` is
positive, and degrades to the full circle (a single sub-path) when that arc
angle is `≤ 0`.  (The radius-non-zero proviso keeps the rational embedding's
division in step with JS division, which produces an infinite arc angle at
radius `0` and therefore also falls back to the circle there.) -/
theorem ring_pattern_solid_outer_segmented_inner
    (cos sin : ℚ → ℚ) (pi phi : ℚ) (cfg : Rings.RingPatternConfig) (i : ℕ)
    (hi : i < (Rings.generateRingPattern cos sin pi phi cfg).rings.length) :
    (i = 0 →
      (Rings.ringAt (Rings.generateRingPattern cos sin pi phi cfg) i).pathData
          = circleToPath (Rings.generateRingPattern cos sin pi phi cfg).center
              ((Rings.ringAt (Rings.generateRingPattern cos sin pi phi cfg) i).radius)
        ∧ countMoves ((Rings.ringAt (Rings.generateRingPattern cos sin pi phi cfg) i).pathData)
            = 1)
    ∧ (1 ≤ i → 0 < cfg.cutCount →
        (Rings.ringAt (Rings.generateRingPattern cos sin pi phi cfg) i).radius ≠ 0 →
        (Rings.arcAngleOf pi cfg.cutCount cfg.cutWidth
            (Rings.ringAt (Rings.generateRingPattern cos sin pi phi cfg) i).radius ≤ 0 →
          (Rings.ringAt (Rings.generateRingPattern cos sin pi phi cfg) i).pathData
              = circleToPath (Rings.generateRingPattern cos sin pi phi cfg).center
                  ((Rings.ringAt (Rings.generateRingPattern cos sin pi phi cfg) i).radius)
            ∧ countMoves
                ((Rings.ringAt (Rings.generateRingPattern cos sin pi phi cfg) i).pathData) = 1)
        ∧ (0 < Rings.arcAngleOf pi cfg.cutCount cfg.cutWidth
              (Rings.ringAt (Rings.generateRingPattern cos sin pi phi cfg) i).radius →
          countMoves ((Rings.ringAt (Rings.generateRingPattern cos sin pi phi cfg) i).pathData)
            = cfg.cutCount)) := by
  have hi' : i < (Rings.calculateRadii phi cfg.outerRadius cfg.ringCount cfg.spacingMode
      ⟨some cfg.innerRadius, some cfg.outerGap, some cfg.shrinkage⟩).length := by
    rwa [generateRingPattern_rings_length] at hi
  have hring := generateRingPattern_ringAt cos sin pi phi cfg i hi'
  have hcenter := generateRingPattern_center cos sin pi phi cfg
  constructor
  · intro h0
    subst h0
    rw [hring, hcenter]
    simp only [if_pos (Or.inl rfl)]
    exact ⟨rfl, countMoves_circleToPath _ _⟩
  · intro h1 hcut hr0
    have hnot : ¬ (i = 0 ∨ cfg.cutCount = 0) := by omega
    rw [hring, hcenter] at *
    simp only [if_neg hnot] at *
    constructor
    · intro hneg
      rw [generateRingWithCuts_circle_of_nonpos _ _ _ _ _ _ _ _ (by omega) hneg]
      exact ⟨rfl, countMoves_circleToPath _ _⟩
    · intro hpos
      exact generateRingWithCuts_count_of_pos _ _ _ _ _ _ _ _ (by omega) hpos

/-- C3 witness: outer radius 100, 2 rings, 4 cuts of width 8 (the command
counts do not depend on the trigonometric parameters, instantiated here with
rational stand-ins): ring 0 is the solid circle, ring 1 is split into 4
arcs. -/
theorem ring_pattern_witness :
    1 < (Rings.generateRingPattern zeroFun zeroFun (355 / 113) 2 ringCfgW).rings.length ∧
    ((1 = 0 →
      (Rings.ringAt (Rings.generateRingPattern zeroFun zeroFun (355 / 113) 2 ringCfgW) 1).pathData
          = circleToPath (Rings.generateRingPattern zeroFun zeroFun (355 / 113) 2 ringCfgW).center
              ((Rings.ringAt (Rings.generateRingPattern zeroFun zeroFun (355 / 113) 2 ringCfgW) 1).radius)
        ∧ countMoves ((Rings.ringAt (Rings.generateRingPattern zeroFun zeroFun (355 / 113) 2 ringCfgW) 1).pathData)
            = 1)
    ∧ (1 ≤ 1 → 0 < ringCfgW.cutCount →
        (Rings.ringAt (Rings.generateRingPattern zeroFun zeroFun (355 / 113) 2 ringCfgW) 1).radius ≠ 0 →
        (Rings.arcAngleOf (355 / 113) ringCfgW.cutCount ringCfgW.cutWidth
            (Rings.ringAt (Rings.generateRingPattern zeroFun zeroFun (355 / 113) 2 ringCfgW) 1).radius ≤ 0 →
          (Rings.ringAt (Rings.generateRingPattern zeroFun zeroFun (355 / 113) 2 ringCfgW) 1).pathData
              = circleToPath (Rings.generateRingPattern zeroFun zeroFun (355 / 113) 2 ringCfgW).center
                  ((Rings.ringAt (Rings.generateRingPattern zeroFun zeroFun (355 / 113) 2 ringCfgW) 1).radius)
            ∧ countMoves
                ((Rings.ringAt (Rings.generateRingPattern zeroFun zeroFun (355 / 113) 2 ringCfgW) 1).pathData) = 1)
        ∧ (0 < Rings.arcAngleOf (355 / 113) ringCfgW.cutCount ringCfgW.cutWidth
              (Rings.ringAt (Rings.generateRingPattern zeroFun zeroFun (355 / 113) 2 ringCfgW) 1).radius →
          countMoves ((Rings.ringAt (Rings.generateRingPattern zeroFun zeroFun (355 / 113) 2 ringCfgW) 1).pathData)
            = ringCfgW.cutCount))) := by
  have hlen : 1 < (Rings.generateRingPattern zeroFun zeroFun (355 / 113) 2 ringCfgW).rings.length := by
    rw [generateRingPattern_rings_length]
    norm_num [ringCfgW, Rings.calculateRadii, Spacing.uniformSeq, Spacing.orDefault]
  exact ⟨hlen,
    ring_pattern_solid_outer_segmented_inner zeroFun zeroFun (355 / 113) 2 ringCfgW 1 hlen⟩

lemma spiralPoints_length (cos sin sqrt exp : ℚ → ℚ) (center : Pt)
    (innerRadius outerRadius startAngle turns : ℚ) (spiralType : Spirals.SpiralType)
    (growthFactor pi : ℚ) :
    (Spirals.spiralPoints cos sin sqrt exp center innerRadius outerRadius startAngle
      turns spiralType growthFactor pi).length = (Int.ceil (turns * 32) + 1).toNat := by
  simp [Spirals.spiralPoints]

lemma pointsToBezier_short (points : List Pt) (h : points.length < 2) :
    Spirals.pointsToBezierPath points = [] := by
  rw [Spirals.pointsToBezierPath]
  exact if_pos h

lemma pointsToBezier_two (points : List Pt) (h : points.length = 2) :
    Spirals.countMoveS (Spirals.pointsToBezierPath points) = 1
    ∧ Spirals.countLineS (Spirals.pointsToBezierPath points) = 1
    ∧ Spirals.countCubicS (Spirals.pointsToBezierPath points) = 0 := by
  rw [Spirals.pointsToBezierPath, if_neg (by omega), if_pos h]
  exact ⟨rfl, rfl, rfl⟩

lemma pointsToBezier_many (points : List Pt) (h : 3 ≤ points.length) :
    Spirals.countMoveS (Spirals.pointsToBezierPath points) = 1
    ∧ Spirals.countCubicS (Spirals.pointsToBezierPath points) = points.length - 1
    ∧ Spirals.countLineS (Spirals.pointsToBezierPath points) = 0 := by
  rw [Spirals.pointsToBezierPath, if_neg (by omega), if_neg (by omega)]
  refine ⟨?_, ?_, ?_⟩
  · rw [Spirals.countMoveS, List.countP_cons_of_pos _ _ (by rfl), List.countP_map,
      List.countP_eq_zero.mpr (fun a _ => by simp)]
  · rw [Spirals.countCubicS, List.countP_cons_of_neg _ _ (by simp), List.countP_map]
    rw [List.countP_eq_length.mpr (fun a _ => by simp), List.length_range]
  · rw [Spirals.countLineS, List.countP_cons_of_neg _ _ (by simp), List.countP_map]
    rw [List.countP_eq_zero.mpr (fun a _ => by simp)]

/-- C6 (amended): the spiral arm samples `(ceil(turns·32) + 1)` points (one
more than the claim's `ceil(turns·32)`; negative values clamp to an empty
sample list); with fewer than 2 samples `generateSpiralArm` is the empty
path; with exactly 2 samples it is one move plus one line and no cubic; with
`n ≥ 3` samples it is one move followed by exactly `n - 1` cubic-Bezier
commands and no line. -/
theorem spiral_arm_sample_and_token_counts
    (cos sin sqrt exp : ℚ → ℚ) (center : Pt)
    (innerRadius outerRadius startAngle turns growthFactor pi : ℚ)
    (spiralType : Spirals.SpiralType) :
    ((Spirals.spiralPoints cos sin sqrt exp center innerRadius outerRadius startAngle
        turns spiralType growthFactor pi).length = (Int.ceil (turns * 32) + 1).toNat)
    ∧ ((Spirals.spiralPoints cos sin sqrt exp center innerRadius outerRadius startAngle
          turns spiralType growthFactor pi).length < 2 →
        Spirals.generateSpiralArm cos sin sqrt exp center innerRadius outerRadius
          startAngle turns spiralType growthFactor pi = [])
    ∧ ((Spirals.spiralPoints cos sin sqrt exp center innerRadius outerRadius startAngle
          turns spiralType growthFactor pi).length = 2 →
        Spirals.countMoveS (Spirals.generateSpiralArm cos sin sqrt exp center innerRadius
            outerRadius startAngle turns spiralType growthFactor pi) = 1
        ∧ Spirals.countLineS (Spirals.generateSpiralArm cos sin sqrt exp center innerRadius
            outerRadius startAngle turns spiralType growthFactor pi) = 1
        ∧ Spirals.countCubicS (Spirals.generateSpiralArm cos sin sqrt exp center innerRadius
            outerRadius startAngle turns spiralType growthFactor pi) = 0)
    ∧ (3 ≤ (Spirals.spiralPoints cos sin sqrt exp center innerRadius outerRadius startAngle
          turns spiralType growthFactor pi).length →
        Spirals.countMoveS (Spirals.generateSpiralArm cos sin sqrt exp center innerRadius
            outerRadius startAngle turns spiralType growthFactor pi) = 1
        ∧ Spirals.countCubicS (Spirals.generateSpiralArm cos sin sqrt exp center innerRadius
            outerRadius startAngle turns spiralType growthFactor pi)
          = (Spirals.spiralPoints cos sin sqrt exp center innerRadius outerRadius startAngle
              turns spiralType growthFactor pi).length - 1
        ∧ Spirals.countLineS (Spirals.generateSpiralArm cos sin sqrt exp center innerRadius
            outerRadius startAngle turns spiralType growthFactor pi) = 0) := by
  refine ⟨spiralPoints_length cos sin sqrt exp center innerRadius outerRadius startAngle
    turns spiralType growthFactor pi, ?_, ?_, ?_⟩
  · intro h
    rw [Spirals.generateSpiralArm]
    exact pointsToBezier_short _ h
  · intro h
    rw [Spirals.generateSpiralArm]
    exact pointsToBezier_two _ h
  · intro h
    rw [Spirals.generateSpiralArm]
    exact pointsToBezier_many _ h

/-- C6 counterexample: with `turns = 1` the arm samples 33 points, not
`ceil(1·32) = 32` as the claim states (the sample count does not depend on
the transcendental parameters, instantiated with rational stand-ins). -/
theorem spiral_sample_count_off_by_one :
    (Spirals.spiralPoints zeroFun zeroFun zeroFun zeroFun ⟨0, 0⟩ 10 100 0 1
        .archimedean 0 (355 / 113)).length = 33
    ∧ Int.ceil ((1 : ℚ) * 32) = 32 ∧ (33 : ℤ) ≠ 32 := by
  refine ⟨?_, by norm_num, by norm_num⟩
  rw [spiralPoints_length]
  norm_num
  rfl

/-- C6 witness: `turns = 1/16` gives `ceil(2) + 1 = 3` sample points, hence
one move and exactly two cubic commands. -/
theorem spiral_arm_counts_witness :
    3 ≤ (Spirals.spiralPoints zeroFun zeroFun zeroFun zeroFun ⟨0, 0⟩ 10 100 0 (1 / 16)
        .archimedean 0 (355 / 113)).length
    ∧ (Spirals.countMoveS (Spirals.generateSpiralArm zeroFun zeroFun zeroFun zeroFun ⟨0, 0⟩
          10 100 0 (1 / 16) .archimedean 0 (355 / 113)) = 1
      ∧ Spirals.countCubicS (Spirals.generateSpiralArm zeroFun zeroFun zeroFun zeroFun ⟨0, 0⟩
          10 100 0 (1 / 16) .archimedean 0 (355 / 113))
        = (Spirals.spiralPoints zeroFun zeroFun zeroFun zeroFun ⟨0, 0⟩ 10 100 0 (1 / 16)
            .archimedean 0 (355 / 113)).length - 1
      ∧ Spirals.countLineS (Spirals.generateSpiralArm zeroFun zeroFun zeroFun zeroFun ⟨0, 0⟩
          10 100 0 (1 / 16) .archimedean 0 (355 / 113)) = 0) := by
  have h3 : 3 ≤ (Spirals.spiralPoints zeroFun zeroFun zeroFun zeroFun ⟨0, 0⟩ 10 100 0 (1 / 16)
      .archimedean 0 (355 / 113)).length := by
    rw [spiralPoints_length]
    norm_num
  exact ⟨h3, (spiral_arm_sample_and_token_counts zeroFun zeroFun zeroFun zeroFun ⟨0, 0⟩
    10 100 0 (1 / 16) 0 (355 / 113) .archimedean).2.2.2 h3⟩

lemma twoDec_roundTo (x : ℚ) : twoDec (roundTo x 2) := by
  unfold twoDec roundTo
  have h : (jsRound (x * 10 ^ 2) : ℚ) / 10 ^ 2 * 100 = (jsRound (x * 10 ^ 2) : ℚ) := by
    rw [show ((10 : ℚ) ^ 2) = 100 by norm_num]
    exact div_mul_cancel₀ _ (by norm_num)
  rw [h, Rat.den_intCast]

lemma threeDec_toFixed3 (x : ℚ) : threeDec (Spirals.toFixed3 x) := by
  unfold threeDec Spirals.toFixed3
  have h : (jsRound (x * 1000) : ℚ) / 1000 * 1000 = (jsRound (x * 1000) : ℚ) := by
    exact div_mul_cancel₀ _ (by norm_num)
  rw [h, Rat.den_intCast]

lemma builderCmd_moveTo (p : Pt) : builderCmd (moveTo p) :=
  ⟨twoDec_roundTo _, twoDec_roundTo _⟩

lemma builderCmd_lineTo (p : Pt) : builderCmd (lineTo p) :=
  ⟨twoDec_roundTo _, twoDec_roundTo _⟩

lemma builderCmd_arcTo (radius : ℚ) (p : Pt) (la sw : Bool) :
    builderCmd (arcTo radius p la sw) :=
  ⟨twoDec_roundTo _, twoDec_roundTo _, rfl, twoDec_roundTo _, twoDec_roundTo _⟩

lemma forall_mem_append {α : Type} {P : α → Prop} {l1 l2 : List α}
    (h1 : ∀ c ∈ l1, P c) (h2 : ∀ c ∈ l2, P c) : ∀ c ∈ l1 ++ l2, P c := by
  intro c hc
  rcases List.mem_append.mp hc with h | h
  · exact h1 c h
  · exact h2 c h

lemma builderCmd_moveLine (p q : Pt) : ∀ c ∈ [moveTo p, lineTo q], builderCmd c := by
  intro c hc
  simp only [List.mem_cons, List.not_mem_nil, or_false] at hc
  rcases hc with rfl | rfl
  · exact builderCmd_moveTo _
  · exact builderCmd_lineTo _

lemma builderCmd_lineSingle (p : Pt) : ∀ c ∈ [lineTo p], builderCmd c := by
  intro c hc
  simp only [List.mem_singleton] at hc
  subst hc
  exact builderCmd_lineTo _

lemma builderCmd_circleToPath (center : Pt) (radius : ℚ) :
    ∀ c ∈ circleToPath center radius, builderCmd c := by
  intro c hc
  simp only [circleToPath, List.mem_cons, List.not_mem_nil, or_false] at hc
  rcases hc with rfl | rfl | rfl | rfl
  · exact builderCmd_moveTo _
  · exact builderCmd_arcTo _ _ _ _
  · exact builderCmd_arcTo _ _ _ _
  · exact trivial

lemma builderCmd_generateArc (cos sin : ℚ → ℚ) (pi : ℚ) (center : Pt)
    (radius a b : ℚ) :
    ∀ c ∈ Rings.generateArc cos sin pi center radius a b, builderCmd c := by
  intro c hc
  simp only [Rings.generateArc, List.mem_cons, List.not_mem_nil, or_false] at hc
  rcases hc with rfl | rfl
  · exact builderCmd_moveTo _
  · exact builderCmd_arcTo _ _ _ _

lemma builderCmd_ringWithCuts (cos sin : ℚ → ℚ) (pi : ℚ) (center : Pt)
    (radius : ℚ) (cutCount : ℕ) (cutWidth rotation : ℚ) :
    ∀ c ∈ Rings.generateRingWithCuts cos sin pi center radius cutCount cutWidth rotation,
      builderCmd c := by
  intro c hc
  simp only [Rings.generateRingWithCuts] at hc
  by_cases h0 : cutCount = 0
  · rw [if_pos h0] at hc
    exact builderCmd_circleToPath _ _ c hc
  · rw [if_neg h0] at hc
    by_cases harc : 2 * pi / (cutCount : ℚ) - cutWidth / radius ≤ 0
    · rw [if_pos harc] at hc
      exact builderCmd_circleToPath _ _ c hc
    · rw [if_neg harc, List.mem_flatten] at hc
      obtain ⟨l, hl, hcl⟩ := hc
      rw [List.mem_map] at hl
      obtain ⟨i, _, rfl⟩ := hl
      exact builderCmd_generateArc _ _ _ _ _ _ _ c hcl

lemma builderCmd_ringAt (cos sin : ℚ → ℚ) (pi phi : ℚ)
    (cfg : Rings.RingPatternConfig) (i : ℕ) :
    ∀ c ∈ (Rings.ringAt (Rings.generateRingPattern cos sin pi phi cfg) i).pathData,
      builderCmd c := by
  intro c hc
  by_cases hi : i < (Rings.calculateRadii phi cfg.outerRadius cfg.ringCount cfg.spacingMode
      ⟨some cfg.innerRadius, some cfg.outerGap, some cfg.shrinkage⟩).length
  · rw [generateRingPattern_ringAt cos sin pi phi cfg i hi] at hc
    split at hc
    · exact builderCmd_circleToPath _ _ c hc
    · exact builderCmd_ringWithCuts _ _ _ _ _ _ _ _ c hc
  · rw [Rings.ringAt, List.getD_eq_getElem?_getD, List.getElem?_eq_none] at hc
    · simp at hc
    · rw [generateRingPattern_rings_length]
      omega

lemma builderCmd_drawSide (sqrt : ℚ → ℚ) (start stop : Pt) (n : ℕ) (nh sl : ℚ) :
    ∀ c ∈ Squares.drawSideWithNotches sqrt start stop n nh sl, builderCmd c := by
  intro c hc
  simp only [Squares.drawSideWithNotches] at hc
  split at hc
  · simp at hc
  · rw [List.mem_flatten] at hc
    obtain ⟨l, hl, hcl⟩ := hc
    rw [List.mem_map] at hl
    obtain ⟨k, _, rfl⟩ := hl
    simp only [List.mem_cons, List.not_mem_nil, or_false] at hcl
    rcases hcl with rfl | rfl
    · exact builderCmd_lineTo _
    · exact builderCmd_moveTo _

lemma builderCmd_generateSquare (cos sin : ℚ → ℚ) (pi : ℚ) (center : Pt)
    (size rotationDeg : ℚ) (clockwise : Bool) :
    ∀ c ∈ Squares.generateSquare cos sin pi center size rotationDeg clockwise,
      builderCmd c := by
  intro c hc
  simp only [Squares.generateSquare] at hc
  split at hc <;>
    · simp only [List.mem_cons, List.not_mem_nil, or_false] at hc
      rcases hc with rfl | rfl | rfl | rfl | rfl
      · exact builderCmd_moveTo _
      · exact builderCmd_lineTo _
      · exact builderCmd_lineTo _
      · exact builderCmd_lineTo _
      · exact trivial

lemma builderCmd_squareWithNotches (cos sin sqrt : ℚ → ℚ) (pi : ℚ) (center : Pt)
    (size rotationDeg : ℚ) (clockwise : Bool) (notchesPerSide : ℕ) (notchWidth : ℚ) :
    ∀ c ∈ Squares.generateSquareWithNotches cos sin sqrt pi center size rotationDeg
        clockwise notchesPerSide notchWidth, builderCmd c := by
  simp only [Squares.generateSquareWithNotches]
  split <;>
    · repeat' apply forall_mem_append
      all_goals
        first
          | exact builderCmd_drawSide _ _ _ _ _ _
          | exact builderCmd_moveLine _ _
          | exact builderCmd_lineSingle _

lemma builderCmd_generatePolygon (cos sin : ℚ → ℚ) (pi : ℚ) (center : Pt)
    (radius : ℚ) (sides : ℕ) (rotationDeg : ℚ) :
    ∀ c ∈ Polygons.generatePolygon cos sin pi center radius sides rotationDeg,
      builderCmd c := by
  intro c hc
  rw [Polygons.generatePolygon] at hc
  cases hv : Polygons.getPolygonVertices cos sin pi center radius sides rotationDeg with
  | nil =>
    rw [hv] at hc
    simp only [List.mem_singleton] at hc
    subst hc
    exact trivial
  | cons v0 rest =>
    rw [hv] at hc
    rcases List.mem_cons.mp hc with rfl | hc2
    · exact builderCmd_moveTo _
    · rcases List.mem_append.mp hc2 with hc3 | hc3
      · obtain ⟨v, -, rfl⟩ := List.mem_map.mp hc3
        exact builderCmd_lineTo _
      · rw [List.mem_singleton] at hc3
        subst hc3
        exact trivial

lemma builderCmd_polygonBridges (cos sin sqrt : ℚ → ℚ) (pi : ℚ) (center : Pt)
    (radius : ℚ) (sides : ℕ) (rotationDeg : ℚ) (bridgeCount : ℕ) (bridgeWidth : ℚ) :
    ∀ c ∈ Polygons.generatePolygonWithBridges cos sin sqrt pi center radius sides
        rotationDeg bridgeCount bridgeWidth, builderCmd c := by
  intro c hc
  simp only [Polygons.generatePolygonWithBridges] at hc
  rw [List.mem_flatten] at hc
  obtain ⟨l, hl, hcl⟩ := hc
  rw [List.mem_map] at hl
  obtain ⟨i, _, rfl⟩ := hl
  try simp only at hcl
  split at hcl
  · exact builderCmd_moveLine _ _ c hcl
  · rw [List.mem_flatten] at hcl
    obtain ⟨l2, hl2, hcl2⟩ := hcl
    rw [List.mem_map] at hl2
    obtain ⟨j, _, rfl⟩ := hl2
    try simp only at hcl2
    repeat' split at hcl2
    all_goals
      first
        | exact builderCmd_moveLine _ _ c hcl2
        | simp at hcl2

lemma spiralCmd3Dec_pointsToBezier (points : List Pt) :
    ∀ c ∈ Spirals.pointsToBezierPath points, Spirals.spiralCmd3Dec c := by
  intro c hc
  rw [Spirals.pointsToBezierPath] at hc
  split at hc
  · simp at hc
  · split at hc
    · simp only [List.mem_cons, List.not_mem_nil, or_false] at hc
      rcases hc with rfl | rfl
      · exact ⟨threeDec_toFixed3 _, threeDec_toFixed3 _⟩
      · exact ⟨threeDec_toFixed3 _, threeDec_toFixed3 _⟩
    · simp only [List.mem_cons] at hc
      rcases hc with rfl | hc'
      · exact ⟨threeDec_toFixed3 _, threeDec_toFixed3 _⟩
      · rw [List.mem_map] at hc'
        obtain ⟨i, _, rfl⟩ := hc'
        exact ⟨threeDec_toFixed3 _, threeDec_toFixed3 _, threeDec_toFixed3 _,
          threeDec_toFixed3 _, threeDec_toFixed3 _, threeDec_toFixed3 _⟩

/-- C5 (amended): every command emitted through `PathBuilder` by the ring,
square and polygon generators is an `M`/`L`/`A`/`Z` token with coordinates
(and arc radii) rounded to two decimal places and `xrot = 0`; the spiral arm
paths do not follow that mini-language — they consist of `M`/`L`/cubic-`C`
commands whose coordinates carry three decimal places (`toFixed(3)`). -/
theorem path_language_by_generator
    (cos sin sqrt exp : ℚ → ℚ) (pi phi : ℚ) (cfg : Rings.RingPatternConfig)
    (center : Pt) (size rotationDeg radius innerR outerR startAngle turns growth : ℚ)
    (clockwise : Bool) (notchesPerSide : ℕ) (notchWidth : ℚ) (sides : ℕ)
    (bridgeCount : ℕ) (bridgeWidth : ℚ) (spiralType : Spirals.SpiralType) (i : ℕ) :
    (∀ c ∈ (Rings.ringAt (Rings.generateRingPattern cos sin pi phi cfg) i).pathData,
      builderCmd c)
    ∧ (∀ c ∈ Squares.generateSquare cos sin pi center size rotationDeg clockwise,
      builderCmd c)
    ∧ (∀ c ∈ Squares.generateSquareWithNotches cos sin sqrt pi center size rotationDeg
        clockwise notchesPerSide notchWidth, builderCmd c)
    ∧ (∀ c ∈ Polygons.generatePolygon cos sin pi center radius sides rotationDeg,
      builderCmd c)
    ∧ (∀ c ∈ Polygons.generatePolygonWithBridges cos sin sqrt pi center radius sides
        rotationDeg bridgeCount bridgeWidth, builderCmd c)
    ∧ (∀ c ∈ Spirals.generateSpiralArm cos sin sqrt exp center innerR outerR startAngle
        turns spiralType growth pi, Spirals.spiralCmd3Dec c) :=
  ⟨builderCmd_ringAt cos sin pi phi cfg i,
    builderCmd_generateSquare cos sin pi center size rotationDeg clockwise,
    builderCmd_squareWithNotches cos sin sqrt pi center size rotationDeg clockwise
      notchesPerSide notchWidth,
    builderCmd_generatePolygon cos sin pi center radius sides rotationDeg,
    builderCmd_polygonBridges cos sin sqrt pi center radius sides rotationDeg
      bridgeCount bridgeWidth,
    spiralCmd3Dec_pointsToBezier _⟩

/-- C5 counterexample: `pointsToBezierPath` — the function that renders every
spiral arm path — emits a cubic-Bezier `C` token (not among `M`/`L`/`A`/`Z`)
already on a concrete 3-point input, refuting the claim's assertion that
spiral arm paths use only `M`/`L`/`A`/`Z` tokens with two-decimal
coordinates. -/
theorem spiral_path_violates_mini_language :
    ¬ (∀ c ∈ Spirals.pointsToBezierPath [⟨0, 0⟩, ⟨1, 1 / 8⟩, ⟨2, 0⟩],
        Spirals.claimMiniLanguage c) := by
  intro hall
  have hcount :=
    (pointsToBezier_many [⟨0, 0⟩, ⟨1, 1 / 8⟩, ⟨2, 0⟩] (by norm_num)).2.1
  have hzero : Spirals.countCubicS
      (Spirals.pointsToBezierPath [⟨0, 0⟩, ⟨1, 1 / 8⟩, ⟨2, 0⟩]) = 0 := by
    rw [Spirals.countCubicS, List.countP_eq_zero]
    intro c hc
    have hlang := hall c hc
    cases c with
    | moveS x y => simp
    | lineS x y => simp
    | cubicS a b c2 d e f => exact ((hlang : False)).elim
  rw [hzero] at hcount
  norm_num at hcount

/-- C5 witness: the first command of the outermost ring of a concrete
pattern is an `M` token with two-decimal coordinates. -/
theorem path_language_witness :
    moveTo ⟨100, 0⟩
        ∈ (Rings.ringAt (Rings.generateRingPattern zeroFun zeroFun (355 / 113) 2 ringCfgW) 0).pathData
    ∧ builderCmd (moveTo ⟨100, 0⟩) := by
  have hi : 0 < (Rings.calculateRadii 2 ringCfgW.outerRadius ringCfgW.ringCount
      ringCfgW.spacingMode ⟨some ringCfgW.innerRadius, some ringCfgW.outerGap,
        some ringCfgW.shrinkage⟩).length := by
    norm_num [ringCfgW, Rings.calculateRadii, Spacing.uniformSeq, Spacing.orDefault]
  have hmem : moveTo ⟨100, 0⟩
      ∈ (Rings.ringAt (Rings.generateRingPattern zeroFun zeroFun (355 / 113) 2 ringCfgW) 0).pathData := by
    rw [generateRingPattern_ringAt zeroFun zeroFun (355 / 113) 2 ringCfgW 0 hi]
    have hr : (Rings.calculateRadii 2 ringCfgW.outerRadius ringCfgW.ringCount
        ringCfgW.spacingMode ⟨some ringCfgW.innerRadius, some ringCfgW.outerGap,
          some ringCfgW.shrinkage⟩).getD 0 0 = 100 := by
      norm_num [ringCfgW, Rings.calculateRadii, Spacing.uniformSeq, Spacing.orDefault,
        List.range_succ]
    simp only [if_pos (Or.inl rfl), hr]
    simp [circleToPath, ringCfgW]
  exact ⟨hmem,
    (path_language_by_generator zeroFun zeroFun zeroFun zeroFun (355 / 113) 2 ringCfgW
      ⟨0, 0⟩ 0 0 0 0 0 0 0 0 true 0 0 0 0 0 .archimedean 0).1 _ hmem⟩

/-- C7 evaluation (code bug): for a concrete notched square — center (0,0),
half-size 100, rotation 0 (the trig stand-ins agree with cosine/sine at the
only consumed angle `0`, and `sqrtW` agrees with the real square root at the
two perfect squares reached), clockwise, 2 notches per side, notch width 8 —
the generated polyline starts at the midpoint `(0,-100)` of the first side,
but its final command is a pen-up move ending at `(-46,-100)`: the code never
draws the closing segment back to the start midpoint, contradicting the
claim (and the source's own `Back to start` comment). -/
theorem square_notches_open_end_not_midpoint :
    (Squares.generateSquareWithNotches cosAt0 sinAt0 sqrtW (355 / 113) ⟨0, 0⟩
        100 0 true 2 8).head? = some (.move 0 (-100))
    ∧ (Squares.generateSquareWithNotches cosAt0 sinAt0 sqrtW (355 / 113) ⟨0, 0⟩
        100 0 true 2 8).getLast? = some (.move (-46) (-100))
    ∧ (PathCmd.move (-46) (-100)) ≠ (PathCmd.move 0 (-100)) := by
  refine ⟨?_, ?_, by intro h; exact absurd (PathCmd.move.inj h).1 (by norm_num)⟩ <;>
    norm_num [Squares.generateSquareWithNotches, Squares.getSquareCorners,
      Squares.drawSideWithNotches, Squares.interpolate, degToRad, cosAt0, sinAt0, sqrtW,
      moveTo, lineTo, roundTo, jsRound, List.range_succ, List.getD_cons_zero,
      List.getD_cons_succ, List.getLast?_cons_cons]

lemma bridge_subsegments_skip {eL gap : ℚ} {bpe j : ℕ} (hbpe : bpe ≠ 0)
    (heL : 0 < eL) (hseg : eL / ((bpe : ℚ) + 1) ≤ gap) :
    ¬ ((if j = 0 then (0 : ℚ) else ((j : ℚ) * (eL / ((bpe : ℚ) + 1)) + gap) / eL)
      < (if j = bpe then (1 : ℚ)
         else (((j : ℚ) + 1) * (eL / ((bpe : ℚ) + 1)) - gap) / eL)) := by
  have hb1 : (0 : ℚ) < (bpe : ℚ) + 1 := by positivity
  have hsegpos : 0 < eL / ((bpe : ℚ) + 1) := div_pos heL hb1
  have hgap : 0 < gap := lt_of_lt_of_le hsegpos hseg
  have hseg_eL : ((bpe : ℚ) + 1) * (eL / ((bpe : ℚ) + 1)) = eL :=
    mul_div_cancel₀ _ (ne_of_gt hb1)
  by_cases h0 : j = 0
  · subst h0
    rw [if_pos rfl, if_neg (by omega : ¬ (0 = bpe))]
    apply not_lt.mpr
    rw [div_le_iff heL]
    push_cast
    nlinarith [hseg, heL, hseg_eL]
  · by_cases hb : j = bpe
    · subst hb
      rw [if_neg h0, if_pos rfl]
      apply not_lt.mpr
      rw [le_div_iff heL]
      have hj1 : (1 : ℚ) ≤ (j : ℚ) := by exact_mod_cast Nat.one_le_iff_ne_zero.mpr h0
      nlinarith [hseg, hsegpos, hseg_eL]
    · rw [if_neg h0, if_neg hb]
      apply not_lt.mpr
      rw [div_le_div_iff heL heL]
      have : ((j : ℚ) + 1) * (eL / ((bpe : ℚ) + 1)) - gap
          ≤ (j : ℚ) * (eL / ((bpe : ℚ) + 1)) + gap := by
        nlinarith [hseg, hsegpos]
      nlinarith [this, heL]

/-- C8 (amended): ring cuts whose computed arc angle is non-positive fall
back to the full circle, and a polygon edge with zero bridges is drawn whole;
but a bridge sub-segment whose parameter interval is empty is skipped, not
replaced by the full edge — when the half bridge width reaches every
sub-segment length (on every positive-length edge) the polygon emits no
geometry at all rather than falling back to the uncut form. -/
theorem degenerate_geometry_fallback_and_skip
    (cos sin sqrt : ℚ → ℚ) (pi : ℚ) (center : Pt) (radius : ℚ)
    (cutCount : ℕ) (cutWidth rotation : ℚ) (sides : ℕ) (rotationDeg : ℚ)
    (bridgeCount : ℕ) (bridgeWidth : ℚ) :
    (cutCount ≠ 0 → Rings.arcAngleOf pi cutCount cutWidth radius ≤ 0 →
      Rings.generateRingWithCuts cos sin pi center radius cutCount cutWidth rotation
        = circleToPath center radius)
    ∧ (bridgeCount / sides = 0 →
      Polygons.generatePolygonWithBridges cos sin sqrt pi center radius sides rotationDeg
          bridgeCount bridgeWidth
        = ((List.range sides).map (fun i : ℕ =>
            [moveTo ((Polygons.getPolygonVertices cos sin pi center radius sides
                rotationDeg).getD i ⟨0, 0⟩),
             lineTo ((Polygons.getPolygonVertices cos sin pi center radius sides
                rotationDeg).getD ((i + 1) % sides) ⟨0, 0⟩)])).flatten)
    ∧ (bridgeCount / sides ≠ 0 →
      (∀ i, i < sides →
        0 < Polygons.edgeLen cos sin sqrt pi center radius sides rotationDeg i
        ∧ Polygons.edgeLen cos sin sqrt pi center radius sides rotationDeg i /
            (((bridgeCount / sides : ℕ) : ℚ) + 1) ≤ bridgeWidth / 2) →
      Polygons.generatePolygonWithBridges cos sin sqrt pi center radius sides rotationDeg
        bridgeCount bridgeWidth = []) := by
  refine ⟨generateRingWithCuts_circle_of_nonpos cos sin pi center radius cutCount
    cutWidth rotation, ?_, ?_⟩
  · intro h0
    simp [Polygons.generatePolygonWithBridges, h0]
  · intro hbpe hedges
    simp only [Polygons.generatePolygonWithBridges]
    rw [List.flatten_eq_nil_iff]
    intro l hl
    rw [List.mem_map] at hl
    obtain ⟨i, hi, rfl⟩ := hl
    rw [List.mem_range] at hi
    try simp only
    rw [if_neg hbpe, List.flatten_eq_nil_iff]
    intro l2 hl2
    rw [List.mem_map] at hl2
    obtain ⟨j, hj, rfl⟩ := hl2
    try simp only
    have hpos := (hedges i hi).1
    have hle := (hedges i hi).2
    simp only [Polygons.edgeLen] at hpos hle
    rw [if_neg (bridge_subsegments_skip hbpe hpos hle)]

/-- C8 counterexample: a concrete upright 4-gon (the trig stand-ins agree
with cosine/sine at the four vertex angles, and the conclusion holds for any
positive value of the abstracted square root, here `Rat.sqrt`), radius 1,
`bridgeCount = 4` (one bridge per edge) and `bridgeWidth = 1000000`: every
sub-segment is skipped and the generator emits no geometry at all, instead
of falling back to the full-edge (uncut) form — which is non-empty. -/
theorem polygon_bridges_skip_not_fallback :
    Polygons.generatePolygonWithBridges cosSq sinSq Rat.sqrt (355 / 113) ⟨0, 0⟩ 1 4 0
        4 1000000 = []
    ∧ Polygons.generatePolygon cosSq sinSq (355 / 113) ⟨0, 0⟩ 1 4 0 ≠ [] := by
  constructor
  · norm_num [Polygons.generatePolygonWithBridges, Polygons.getPolygonVertices,
      Polygons.interpolate, pointOnCircle, degToRad, cosSq, sinSq, Rat.sqrt,
      List.range_succ, List.getD_cons_zero, List.getD_cons_succ]
  · norm_num [Polygons.generatePolygon, Polygons.getPolygonVertices, pointOnCircle,
      degToRad, cosSq, sinSq, List.range_succ]
    exact List.cons_ne_nil _ _

/-- C8 witness: conjunct 3 of the amended claim at a concrete instance —
one bridge per edge on a 4-gon with bridge width 10 and unit edge lengths
(`sqrt` instantiated with the constant-one stand-in) emits nothing. -/
theorem degenerate_fallback_witness :
    (4 / 4 : ℕ) ≠ 0 ∧
      Polygons.generatePolygonWithBridges cosSq sinSq oneFun (355 / 113) ⟨0, 0⟩ 1 4 0
        4 10 = [] := by
  refine ⟨by norm_num, ?_⟩
  refine (degenerate_geometry_fallback_and_skip cosSq sinSq oneFun (355 / 113) ⟨0, 0⟩
    1 0 0 0 4 0 4 10).2.2 (by norm_num) ?_
  intro i _
  constructor
  · norm_num [Polygons.edgeLen, oneFun]
  · norm_num [Polygons.edgeLen, oneFun]
